import Mathlib

/-!
# Verification of the gas_agency CSV reconciliation commands

A shallow embedding, in Lean 4, of the CSV-import / report management
commands of the `gas_agency` Django repository:

* `populate_consumers`        (bulk consumer import)
* `populate_consumers_route`  (consumer route assignments)
* `find_duplicate_ration_cards`
* `shared_bluebook`
* `validate_consumer_addresses`

CSV rows are modelled as records of strings (the commands read every cell
as text, `dtype=str`, and normalise missing cells to the empty string via
`fillna('')`).  The relational store is modelled as lists of records;
Django's `@transaction.atomic` is modelled by discarding the draft store
whenever the inner run returns an error.  Auto-generated primary keys are
represented by the corresponding natural key (`consumer_number` is unique
in the `Consumer` model, so it stands in for `consumer.id`).  Dates and
regulator counts are kept as raw text: no claim depends on their parsed
value, only on which rows are staged.
-/

/-- One CSV row of the consumer file.  `pd.read_csv(path, dtype=str).fillna('')`
yields a table in which every cell is a string and missing cells are `""`. -/
structure Row where
  ConsumerNumber : String
  ConsumerName : String
  FatherName : String
  MotherName : String
  Rationcardno : String
  BlueBookNumber : String
  LPGId : String
  KYCDone : String
  Category : String
  ConsumerTypeIdDesc : String
  SvNumber : String
  SvDateInt : String
  ProdCode : String
  NoOfCylinder : String
  NoOfDpr : String
  InDocTypeIdDesc : String
  HistCodeDescription : String
  Address : String
  HouseNo : String
  MobileNumber : String
  AreaCodeDesc : String
  deriving Repr, DecidableEq

/-- A default row, every field blank; concrete test rows override fields. -/
def blankRow : Row :=
  { ConsumerNumber := "", ConsumerName := "", FatherName := "", MotherName := ""
  , Rationcardno := "", BlueBookNumber := "", LPGId := "", KYCDone := ""
  , Category := "", ConsumerTypeIdDesc := "", SvNumber := "", SvDateInt := ""
  , ProdCode := "", NoOfCylinder := "", NoOfDpr := "", InDocTypeIdDesc := ""
  , HistCodeDescription := "", Address := "", HouseNo := "", MobileNumber := ""
  , AreaCodeDesc := "" }

/-- Python `dict.get(k)` over a name-keyed registry (e.g.
`categories = {cat.name: cat for cat in ConsumerCategory.objects.all()}`):
the looked-up object, identified here by its name, or `none` on a miss. -/
def dictGet (registry : List String) (k : String) : Option String :=
  if registry.contains k then some k else none

/-- Python `str.isdigit()` restricted to ASCII: non-empty and every
character an ASCII digit.  This simplified form is used inside
`mkConsumer`, whose import-level theorems depend only on which rows are
staged, never on the coerced values; the Latin-1-complete character model
(`str.isdigit()` also accepts Numeric_Type=Digit characters such as `'²'`)
is `pyIsDigitChar` / `pyIsDigitU` below. -/
def pyIsDigit (s : String) : Bool :=
  !s.toList.isEmpty && s.toList.all Char.isDigit

/-- Numeric value of a digit string, i.e. Python `int(s)` on an
all-digits string (`natOfDigits "" = 0`, matching `int(float(".5")) = 0`
through the integer-part reading below). -/
def natOfDigits (cs : List Char) : Nat :=
  cs.foldl (fun n c => 10 * n + (c.toNat - 48)) 0

/-- Python `s.replace('.', '', 1)`: remove the first `'.'` only. -/
def removeFirstDot : List Char → List Char
  | [] => []
  | c :: cs => if c = '.' then cs else c :: removeFirstDot cs

/-- The guard `row.get('LPGId') and row.get('LPGId').replace('.','',1).isdigit()`:
the string is non-empty and, after deleting the first dot, a non-empty
all-digits string ("float-like numeric string").  ASCII form used inside
`mkConsumer`; the Unicode-aware guard is `lpgGuardU` below. -/
def lpgGuard (s : String) : Bool :=
  !s.toList.isEmpty && (!(removeFirstDot s.toList).isEmpty
    && (removeFirstDot s.toList).all Char.isDigit)

/-- Exact decimal truncation of a `lpgGuard`-passing numeric string: the
value of the digits before the first dot.  This SIMPLIFIES `int(float(s))`,
which rounds through an IEEE-754 binary64 and can differ from the decimal
truncation at ≥ 16 significant digits; the exact binary64 semantics is
`intOfFloatDigits` below.  The simplified form is used only inside
`mkConsumer`, where no theorem depends on the coerced value. -/
def intOfFloatStr (s : String) : Nat :=
  natOfDigits (s.toList.takeWhile (fun c => c ≠ '.'))

/-- A staged/persisted `Consumer` record (fields used by the import;
`category` / `consumer_type` hold the looked-up lookup-row name, `none`
when the registry lookup missed).  In the Django model `consumer_number`
is unique, `lpg_id` is unique-when-present, and `category` and
`consumer_type` are non-nullable foreign keys. -/
structure ConsumerRec where
  consumer_number : String
  consumer_name : String
  father_name : String
  mother_name : String
  ration_card_num : Option String
  lpg_id : Option Nat
  blue_book : Option Nat
  is_kyc_done : Bool
  category : Option String
  consumer_type : Option String
  deriving Repr, DecidableEq

/-- The `Consumer(...)` constructor call of `populate_consumers` (lines
53–63): field-by-field translation of the keyword arguments.  The two
numeric coercions appear in the simplified form (ASCII digits, exact
decimal truncation) — sufficient for the theorems about which rows are
staged; their exact semantics (Unicode digit classes, binary64 rounding,
`ValueError` / `OverflowError` paths) is modelled by `blueBookCoerce` and
`lpgCoerce` below. -/
def mkConsumer (categories consumer_types : List String) (r : Row) : ConsumerRec :=
  { consumer_number := r.ConsumerNumber
  , consumer_name := r.ConsumerName
  , father_name := r.FatherName
  , mother_name := r.MotherName
  , ration_card_num := if r.Rationcardno ≠ "" then some r.Rationcardno else none
  , lpg_id := if lpgGuard r.LPGId then some (intOfFloatStr r.LPGId) else none
  , blue_book := if r.BlueBookNumber ≠ "" && pyIsDigit r.BlueBookNumber then
      some (natOfDigits r.BlueBookNumber.toList) else none
  , is_kyc_done := r.KYCDone = "KYC Done"
  , category := dictGet categories r.Category
  , consumer_type := dictGet consumer_types r.ConsumerTypeIdDesc }

/-- `df.drop_duplicates(subset=['ConsumerNumber'], keep='first')`, written
with an explicit seen-set accumulator: keep a row iff its `ConsumerNumber`
has not been seen before. -/
def dropDupBy (seen : List String) : List Row → List Row
  | [] => []
  | r :: rs =>
    if seen.contains r.ConsumerNumber then dropDupBy seen rs
    else r :: dropDupBy (r.ConsumerNumber :: seen) rs

def dropDuplicatesByConsumer (rows : List Row) : List Row :=
  dropDupBy [] rows

/-- Step 2 of `populate_consumers`: the `consumers_to_create` list — first
row per `ConsumerNumber`, skipping numbers already in the store's
`existing_consumer_nums` set, each surviving row turned into a `Consumer`
candidate. -/
def consumersToCreate (categories consumer_types existing : List String)
    (rows : List Row) : List ConsumerRec :=
  ((dropDuplicatesByConsumer rows).filter
      (fun r => !existing.contains r.ConsumerNumber)).map
    (mkConsumer categories consumer_types)

example :
    consumersToCreate ["Gen"] ["Domestic"] []
      [{ blankRow with ConsumerNumber := "C1", BlueBookNumber := "12.5" },
       { blankRow with ConsumerNumber := "C1", BlueBookNumber := "7" }]
    = [{ consumer_number := "C1", consumer_name := "", father_name := ""
       , mother_name := "", ration_card_num := none, lpg_id := none
       , blue_book := none, is_kyc_done := false, category := none
       , consumer_type := none }] := by decide

/-- `consumer_number` of a built candidate is the row's `ConsumerNumber`. -/
theorem mkConsumer_number (cats cts : List String) (r : Row) :
    (mkConsumer cats cts r).consumer_number = r.ConsumerNumber := rfl

/-- Filtering the first-seen deduplication by one `ConsumerNumber` keeps
exactly the first row carrying it — none if that number was already seen. -/
theorem dropDupBy_filter (cn : String) :
    ∀ (seen : List String) (rows : List Row),
      (dropDupBy seen rows).filter (fun r => r.ConsumerNumber == cn) =
        if seen.contains cn then []
        else (rows.find? (fun r => r.ConsumerNumber == cn)).toList := by
  intro seen rows
  induction rows generalizing seen with
  | nil => simp [dropDupBy]
  | cons r rs ih =>
    by_cases hseen : r.ConsumerNumber ∈ seen
    · by_cases hcn : r.ConsumerNumber = cn
      · subst hcn
        simp [dropDupBy, hseen, ih]
      · have hcn' : ¬(cn = r.ConsumerNumber) := fun h => hcn h.symm
        simp [dropDupBy, hseen, ih, hcn, hcn']
    · by_cases hcn : r.ConsumerNumber = cn
      · subst hcn
        simp [dropDupBy, hseen, List.filter, ih]
      · have hcn' : ¬(cn = r.ConsumerNumber) := fun h => hcn h.symm
        simp [dropDupBy, hseen, List.filter, hcn, hcn', ih]

/-- Filtering the staged `consumers_to_create` by one `ConsumerNumber`:
nothing if the number is already in the store, otherwise exactly the
candidate built from the first row carrying that number. -/
theorem consumersToCreate_filter (cats cts existing : List String)
    (rows : List Row) (cn : String) :
    (consumersToCreate cats cts existing rows).filter
        (fun c => c.consumer_number == cn) =
      if existing.contains cn then []
      else ((rows.find? (fun r => r.ConsumerNumber == cn)).toList).map
        (mkConsumer cats cts) := by
  have h1 : (consumersToCreate cats cts existing rows).filter
      (fun c => c.consumer_number == cn) =
      ((((dropDupBy [] rows).filter
          (fun r => !existing.contains r.ConsumerNumber)).filter
        (fun r => r.ConsumerNumber == cn)).map (mkConsumer cats cts)) := by
    unfold consumersToCreate dropDuplicatesByConsumer
    rw [List.filter_map]
    rfl
  rw [h1, List.filter_filter]
  have h2 : (fun (r : Row) =>
        (r.ConsumerNumber == cn) && !existing.contains r.ConsumerNumber)
      = (fun r =>
        (!existing.contains r.ConsumerNumber) && (r.ConsumerNumber == cn)) := by
    funext r
    exact Bool.and_comm _ _
  rw [h2, ← List.filter_filter, dropDupBy_filter]
  simp only [List.contains_nil, Bool.false_eq_true, if_false]
  cases hfind : rows.find? (fun r => r.ConsumerNumber == cn) with
  | none => simp
  | some r0 =>
    have hr0 : r0.ConsumerNumber = cn := by
      have := List.find?_some hfind
      simpa using this
    by_cases hex : cn ∈ existing
    · simp [List.filter, hr0, hex]
    · simp [List.filter, hr0, hex]

/-- C1: in `populate_consumers`, when multiple rows share one
`ConsumerNumber`, exactly one `Consumer` candidate is staged and it is
built from the first-seen row in original row order; a `ConsumerNumber`
already present in the store's existing consumer-number set produces no
candidate at all. -/
theorem populate_consumers_dedup_first_seen
    (cats cts existing : List String) (rows : List Row) (cn : String) :
    (existing.contains cn = true →
      (consumersToCreate cats cts existing rows).filter
        (fun c => c.consumer_number == cn) = [])
    ∧ (existing.contains cn = false →
        ∀ r0, rows.find? (fun r => r.ConsumerNumber == cn) = some r0 →
          (consumersToCreate cats cts existing rows).filter
            (fun c => c.consumer_number == cn) = [mkConsumer cats cts r0]) := by
  constructor
  · intro h
    have hmem : cn ∈ existing := by simpa using h
    rw [consumersToCreate_filter]
    simp [hmem]
  · intro h r0 hf
    have hmem : cn ∉ existing := by simpa using h
    rw [consumersToCreate_filter]
    simp [hmem, hf]

def c1RowA : Row := { blankRow with ConsumerNumber := "C1", ConsumerName := "Asha" }

def c1RowB : Row := { blankRow with ConsumerNumber := "C1", ConsumerName := "Binu" }

/-- Witness for C1: with `C1` occurring twice (different names) and the
store already holding `C9`, exactly the candidate from the first `C1` row
is staged. -/
theorem populate_consumers_dedup_first_seen_witness :
    (consumersToCreate ["Gen"] ["Domestic"] ["C9"] [c1RowA, c1RowB]).filter
        (fun c => c.consumer_number == "C1")
      = [mkConsumer ["Gen"] ["Domestic"] c1RowA] :=
  (populate_consumers_dedup_first_seen ["Gen"] ["Domestic"] ["C9"]
      [c1RowA, c1RowB] "C1").2 (by decide) c1RowA (by decide)

def c3Row : Row := { blankRow with
  ConsumerNumber := "C3"
  ConsumerName := "Mira"
  Category := "UnknownCat"
  ConsumerTypeIdDesc := "UnknownType" }

/-- C3 counterexample: a row whose `Category` (`"UnknownCat"`) and
`ConsumerTypeIdDesc` (`"UnknownType"`) are absent from the registries does
NOT make the reconciliation pass raise or abort — `dict.get` yields `None`
and the pass silently stages the candidate, with both references absent. -/
theorem populate_consumers_lookup_miss_counterexample :
    consumersToCreate ["Gen"] ["Domestic"] [] [c3Row]
      = [{ consumer_number := "C3", consumer_name := "Mira", father_name := ""
         , mother_name := "", ration_card_num := none, lpg_id := none
         , blue_book := none, is_kyc_done := false, category := none
         , consumer_type := none }] := by decide

/-- C3 amended: on a registry miss for `Category` or `ConsumerTypeIdDesc`
the reconciliation pass silently proceeds, staging the candidate with an
absent (`none`) category / consumer-type reference; it never raises and
never implicitly creates the missing lookup row (the registries are
read-only inputs of the pass). -/
theorem populate_consumers_lookup_miss_amended (cats cts : List String) (r : Row) :
    (cats.contains r.Category = false → (mkConsumer cats cts r).category = none)
    ∧ (cts.contains r.ConsumerTypeIdDesc = false →
        (mkConsumer cats cts r).consumer_type = none) := by
  constructor
  · intro h
    have hmem : r.Category ∉ cats := by simpa using h
    simp [mkConsumer, dictGet, hmem]
  · intro h
    have hmem : r.ConsumerTypeIdDesc ∉ cts := by simpa using h
    simp [mkConsumer, dictGet, hmem]

/-- Witness for the amended C3 at the concrete counterexample row. -/
theorem populate_consumers_lookup_miss_amended_witness :
    (mkConsumer ["Gen"] ["Domestic"] c3Row).category = none
    ∧ (mkConsumer ["Gen"] ["Domestic"] c3Row).consumer_type = none :=
  ⟨(populate_consumers_lookup_miss_amended ["Gen"] ["Domestic"] c3Row).1 (by decide),
   (populate_consumers_lookup_miss_amended ["Gen"] ["Domestic"] c3Row).2 (by decide)⟩

/-- First-seen deduplication of a string column (`pandas` group keys /
`drop_duplicates` on a single column), with a seen-set accumulator. -/
def dedupFirst (seen : List String) : List String → List String
  | [] => []
  | x :: xs =>
    if seen.contains x then dedupFirst seen xs
    else x :: dedupFirst (x :: seen) xs

/-- `df_filtered.groupby('Rationcardno')['ConsumerNumber'].nunique()` for
one group: the number of distinct `ConsumerNumber` values among the
non-blank-`Rationcardno` rows carrying ration card `rc`. -/
def distinctConsumersFor (rows : List Row) (rc : String) : Nat :=
  (((rows.filter (fun r => r.Rationcardno != "")).filter
      (fun r => r.Rationcardno == rc)).map (fun r => r.ConsumerNumber)).dedup.length

/-- `find_duplicate_ration_cards`: drop blank ration cards, group by
`Rationcardno`, and report the groups whose distinct-`ConsumerNumber`
count exceeds 1 (`true_duplicates = grouped[grouped > 1]`).  The report
lists each qualifying ration-card value once; `groupby` orders the keys,
which does not affect membership, the property claimed. -/
def findDuplicateRationCards (rows : List Row) : List String :=
  (dedupFirst []
      ((rows.filter (fun r => r.Rationcardno != "")).map
        (fun r => r.Rationcardno))).filter
    (fun rc => 1 < distinctConsumersFor rows rc)

/-- Membership in the first-seen deduplication. -/
theorem mem_dedupFirst (y : String) :
    ∀ (seen xs : List String), y ∈ dedupFirst seen xs ↔ (y ∈ xs ∧ y ∉ seen) := by
  intro seen xs
  induction xs generalizing seen with
  | nil => simp [dedupFirst]
  | cons x xs ih =>
    by_cases hx : x ∈ seen
    · have hx' : seen.contains x = true := by simpa using hx
      rw [dedupFirst, if_pos hx', ih]
      constructor
      · rintro ⟨h1, h2⟩
        exact ⟨List.mem_cons_of_mem _ h1, h2⟩
      · rintro ⟨h1, h2⟩
        rcases List.mem_cons.mp h1 with rfl | h1
        · exact absurd hx h2
        · exact ⟨h1, h2⟩
    · have hx' : ¬seen.contains x = true := by simpa using hx
      rw [dedupFirst, if_neg hx']
      constructor
      · intro h
        rcases List.mem_cons.mp h with rfl | h
        · exact ⟨List.mem_cons_self _ _, hx⟩
        · rcases (ih (x :: seen)).mp h with ⟨h1, h2⟩
          refine ⟨List.mem_cons_of_mem _ h1, fun hc => h2 ?_⟩
          exact List.mem_cons_of_mem _ hc
      · rintro ⟨h1, h2⟩
        by_cases hyx : y = x
        · exact hyx ▸ List.mem_cons_self _ _
        · rcases List.mem_cons.mp h1 with rfl | h1
          · exact absurd rfl hyx
          · refine List.mem_cons_of_mem _ ((ih (x :: seen)).mpr ⟨h1, fun hc => ?_⟩)
            rcases List.mem_cons.mp hc with rfl | hc
            · exact hyx rfl
            · exact h2 hc

/-- A list all of whose elements equal `c0` has at most one distinct value. -/
theorem dedup_length_le_one (c0 : String) (l : List String)
    (h : ∀ x ∈ l, x = c0) : l.dedup.length ≤ 1 := by
  induction l with
  | nil => simp
  | cons x xs ih =>
    by_cases hx : x ∈ xs
    · rw [List.dedup_cons_of_mem hx]
      exact ih (fun y hy => h y (List.mem_cons_of_mem _ hy))
    · rw [List.dedup_cons_of_not_mem hx]
      cases xs with
      | nil => simp
      | cons y ys =>
        have hxy : x = y := by
          rw [h x (List.mem_cons_self _ _),
            h y (List.mem_cons_of_mem _ (List.mem_cons_self _ _))]
        exact absurd (hxy ▸ List.mem_cons_self y ys) hx

/-- C2: a `Rationcardno` value (blank excluded) is reported by
`find_duplicate_ration_cards` iff the number of distinct `ConsumerNumber`
values among its rows is strictly greater than 1; in particular a ration
card whose rows all carry one and the same `ConsumerNumber` is never
reported, however often the row repeats. -/
theorem find_duplicate_ration_cards_spec (rows : List Row) (rc : String) :
    (rc ∈ findDuplicateRationCards rows ↔
      rc ≠ "" ∧ (∃ r ∈ rows, r.Rationcardno = rc)
        ∧ 1 < distinctConsumersFor rows rc)
    ∧ ∀ c0 : String, (∀ r ∈ rows, r.Rationcardno = rc → r.ConsumerNumber = c0) →
        rc ∉ findDuplicateRationCards rows := by
  have hkeys : ∀ x, x ∈ dedupFirst []
        ((rows.filter (fun r => r.Rationcardno != "")).map
          (fun r => r.Rationcardno)) ↔
      (x ≠ "" ∧ ∃ r ∈ rows, r.Rationcardno = x) := by
    intro x
    rw [mem_dedupFirst]
    simp only [List.not_mem_nil, not_false_iff, and_true, List.mem_map,
      List.mem_filter]
    constructor
    · rintro ⟨r, ⟨hr, hne⟩, rfl⟩
      refine ⟨by simpa using hne, r, hr, rfl⟩
    · rintro ⟨hne, r, hr, rfl⟩
      exact ⟨r, ⟨hr, by simpa using hne⟩, rfl⟩
  constructor
  · rw [findDuplicateRationCards, List.mem_filter, hkeys]
    constructor
    · rintro ⟨⟨h1, h2⟩, h3⟩
      exact ⟨h1, h2, by simpa using h3⟩
    · rintro ⟨h1, h2, h3⟩
      exact ⟨⟨h1, h2⟩, by simpa using h3⟩
  · intro c0 hall hmem
    rw [findDuplicateRationCards, List.mem_filter] at hmem
    have hcount : distinctConsumersFor rows rc ≤ 1 := by
      apply dedup_length_le_one c0
      intro x hx
      rcases List.mem_map.mp hx with ⟨r, hr, rfl⟩
      rcases List.mem_filter.mp hr with ⟨hr1, hr2⟩
      rcases List.mem_filter.mp hr1 with ⟨hr0, _⟩
      exact hall r hr0 (by simpa using hr2)
    have : (1 < distinctConsumersFor rows rc) := by simpa using hmem.2
    omega

def c2RowR1C1 : Row := { blankRow with Rationcardno := "R1", ConsumerNumber := "C1" }

def c2RowR1C2 : Row := { blankRow with Rationcardno := "R1", ConsumerNumber := "C2" }

/-- Witness for C2, the two spec scenarios: `R1` shared by `C1` and `C2`
is reported; `R1` carried twice by `C1` alone is not. -/
theorem find_duplicate_ration_cards_spec_witness :
    "R1" ∈ findDuplicateRationCards [c2RowR1C1, c2RowR1C2]
    ∧ "R1" ∉ findDuplicateRationCards [c2RowR1C1, c2RowR1C1] :=
  ⟨(find_duplicate_ration_cards_spec [c2RowR1C1, c2RowR1C2] "R1").1.mpr
      (by decide),
   (find_duplicate_ration_cards_spec [c2RowR1C1, c2RowR1C1] "R1").2 "C1"
      (by decide)⟩

/-- Stable insertion into a count-descending list: the new pair goes after
every pair with a greater-or-equal count. -/
def insertByCountDesc (p : String × Nat) :
    List (String × Nat) → List (String × Nat)
  | [] => [p]
  | q :: qs =>
    if q.2 ≤ p.2 ∧ q.2 ≠ p.2 then p :: q :: qs
    else q :: insertByCountDesc p qs

/-- Sort (value, count) pairs by count, largest first, stably (pairs with
equal counts keep their first-seen order). -/
def sortByCountDesc : List (String × Nat) → List (String × Nat)
  | [] => []
  | p :: ps => insertByCountDesc p (sortByCountDesc ps)

/-- pandas `Series.value_counts()`: the count of each distinct value,
sorted by count in DESCENDING order (`sort=True, ascending=False` is the
pandas default); tie order among equal counts is not part of any claim. -/
def valueCounts (vals : List String) : List (String × Nat) :=
  sortByCountDesc ((dedupFirst [] vals).map
    (fun k => (k, (vals.filter (fun v => v == k)).length)))

/-- `shared_bluebook`: one row per unique consumer
(`drop_duplicates(subset=['ConsumerNumber'], keep='first')`), drop blank
blue-book numbers, `value_counts()` on `BlueBookNumber`, keep counts > 1. -/
def sharedBlueBook (rows : List Row) : List (String × Nat) :=
  (valueCounts
      (((dropDuplicatesByConsumer rows).filter
          (fun r => r.BlueBookNumber != "")).map
        (fun r => r.BlueBookNumber))).filter
    (fun p => 1 < p.2)

/-- The claim's ordering, written from the spec's words: each report entry
has a count no larger than the next ("ascending by occurrence count,
smallest shared count first"). -/
def sortedAscByCount : List (String × Nat) → Bool
  | [] => true
  | [_] => true
  | p :: q :: rest => decide (p.2 ≤ q.2) && sortedAscByCount (q :: rest)

theorem mem_insertByCountDesc (x p : String × Nat) :
    ∀ l, x ∈ insertByCountDesc p l ↔ (x = p ∨ x ∈ l) := by
  intro l
  induction l with
  | nil => simp [insertByCountDesc]
  | cons q qs ih =>
    rw [insertByCountDesc]
    by_cases h : q.2 ≤ p.2 ∧ q.2 ≠ p.2
    · rw [if_pos h]
      simp
    · rw [if_neg h]
      simp only [List.mem_cons, ih]
      tauto

theorem pairwise_insertByCountDesc (p : String × Nat)
    (l : List (String × Nat))
    (h : List.Pairwise (fun a b : String × Nat => b.2 ≤ a.2) l) :
    List.Pairwise (fun a b : String × Nat => b.2 ≤ a.2)
      (insertByCountDesc p l) := by
  induction l with
  | nil => simp [insertByCountDesc]
  | cons q qs ih =>
    rw [insertByCountDesc]
    rcases List.pairwise_cons.mp h with ⟨hq, hqs⟩
    by_cases hc : q.2 ≤ p.2 ∧ q.2 ≠ p.2
    · rw [if_pos hc]
      refine List.pairwise_cons.mpr ⟨?_, h⟩
      intro x hx
      rcases List.mem_cons.mp hx with rfl | hx
      · exact hc.1
      · exact le_trans (hq x hx) hc.1
    · rw [if_neg hc]
      refine List.pairwise_cons.mpr ⟨?_, ih hqs⟩
      intro x hx
      rcases (mem_insertByCountDesc x p qs).mp hx with rfl | hx
      · omega
      · exact hq x hx

theorem pairwise_sortByCountDesc (l : List (String × Nat)) :
    List.Pairwise (fun a b : String × Nat => b.2 ≤ a.2)
      (sortByCountDesc l) := by
  induction l with
  | nil => simp [sortByCountDesc]
  | cons p ps ih => exact pairwise_insertByCountDesc p _ ih

def bbRow (cn bb : String) : Row :=
  { blankRow with ConsumerNumber := cn, BlueBookNumber := bb }

/-- C9 counterexample: with blue book `"A"` shared by 2 unique consumers
and `"B"` by 3, the report lists `("B", 3)` before `("A", 2)` — descending
by count, so NOT in ascending (smallest-shared-count-first) order as the
claim states. -/
theorem shared_bluebook_order_counterexample :
    sharedBlueBook
        [bbRow "D1" "A", bbRow "D2" "A", bbRow "D3" "B",
         bbRow "D4" "B", bbRow "D5" "B"]
      = [("B", 3), ("A", 2)]
    ∧ sortedAscByCount
        (sharedBlueBook
          [bbRow "D1" "A", bbRow "D2" "A", bbRow "D3" "B",
           bbRow "D4" "B", bbRow "D5" "B"]) = false := by
  constructor
  · decide
  · decide

/-- C9 amended: the shared blue-book report lists the blue-book numbers
shared by more than one unique consumer in DESCENDING order of their
distinct-consumer occurrence count — largest shared count first (pandas
`value_counts()` sorts descending) — and every reported count exceeds 1. -/
theorem shared_bluebook_sorted_desc (rows : List Row) :
    List.Pairwise (fun p q : String × Nat => q.2 ≤ p.2) (sharedBlueBook rows)
    ∧ ∀ p ∈ sharedBlueBook rows, 1 < p.2 := by
  constructor
  · exact (pairwise_sortByCountDesc _).filter _
  · intro p hp
    have := List.mem_filter.mp hp
    simpa using this.2

/-- A CSV row for `validate_consumer_addresses` (the three required
columns; the command reads them with `row.get(col, '').strip()`). -/
structure CRow where
  ConsumerNumber : String
  AreaCodeDesc : String
  Address : String
  deriving Repr, DecidableEq

/-- Row filter of `process_csv`: skip rows where any of the three stripped
cells is empty, then keep only rows whose `AreaCodeDesc` equals the
command-line filter. -/
def processCSVKeep (filt : String) (r : CRow) : Bool :=
  !(r.ConsumerNumber.trim == "") && !(r.AreaCodeDesc.trim == "")
    && !(r.Address.trim == "") && (r.AreaCodeDesc.trim == filt)

/-- First-seen deduplication on the first component (the `OrderedDict`
keyed by `ConsumerNumber`: only the first occurrence stores its address). -/
def dedupByFst (seen : List String) :
    List (String × String) → List (String × String)
  | [] => []
  | p :: ps =>
    if seen.contains p.1 then dedupByFst seen ps
    else p :: dedupByFst (p.1 :: seen) ps

/-- `Command.process_csv`: the `(ConsumerNumber, Address)` pairs for the
filtered `AreaCodeDesc` group, deduplicated by consumer, first kept. -/
def process_csv (filt : String) (rows : List CRow) : List (String × String) :=
  dedupByFst [] ((rows.filter (processCSVKeep filt)).map
    (fun r => (r.ConsumerNumber.trim, r.Address.trim)))

/-- Uppercasing of a text, character by character (`str.upper()`); texts
compared for containment are modelled as character lists. -/
def upperChars (s : String) : List Char :=
  s.toList.map Char.toUpper

/-- `Command.get_route_areas`: all the route's sub-area names, uppercased
(`[area.upper() for area in areas]`). -/
def get_route_areas (areas : List String) : List (List Char) :=
  areas.map upperChars

/-- Python substring containment `needle in hay`: the needle's characters
occur contiguously somewhere in the hay. -/
def pySubstr (needle hay : List Char) : Bool :=
  decide (needle <:+: hay)

/-- `Command.validate_consumers`: keep the `(consumer, address)` pairs for
which NO route area occurs in the uppercased address
(`any(area in address_upper for area in route_areas)` is false). -/
def validate_consumers (consumers : List (String × String))
    (route_areas : List (List Char)) : List (String × String) :=
  consumers.filter
    (fun p => !(route_areas.any (fun area => pySubstr area (upperChars p.2))))

/-- The store the validator reads: the route's sub-area names. -/
structure RouteAreaStore where
  route_areas : List String
  deriving Repr, DecidableEq

/-- The whole validation run for one route: the command only reads
`RouteArea` rows and writes nothing, so it returns the store unchanged
alongside the invalid-consumer report. -/
def runValidate (store : RouteAreaStore) (filt : String) (rows : List CRow) :
    List (String × String) × RouteAreaStore :=
  (validate_consumers (process_csv filt rows)
      (get_route_areas store.route_areas),
    store)

/-- C8: a deduplicated `(consumer, address)` pair is flagged invalid iff
none of the route's sub-area names, uppercased, occurs as a substring of
the uppercased address (case-insensitive substring containment — so
`"123 jagtial road"` matches sub-area `"Jagtial"`), and the run returns
the store untouched (the command performs no writes). -/
theorem validate_consumer_addresses_spec (store : RouteAreaStore)
    (filt : String) (rows : List CRow) (p : String × String) :
    (p ∈ (runValidate store filt rows).1 ↔
      p ∈ process_csv filt rows
      ∧ ∀ a ∈ store.route_areas, ¬(upperChars a <:+: upperChars p.2))
    ∧ (runValidate store filt rows).2 = store
    ∧ validate_consumers [("C001", "123 jagtial road")]
        (get_route_areas ["Jagtial"]) = [] := by
  refine ⟨?_, rfl, by decide⟩
  rw [runValidate]
  rw [validate_consumers, List.mem_filter]
  have hpred : ∀ (addr : String),
      ((!((get_route_areas store.route_areas).any
          (fun area => pySubstr area (upperChars addr)))) = true
        ↔ ∀ a ∈ store.route_areas, ¬(upperChars a <:+: upperChars addr)) := by
    intro addr
    rw [Bool.not_eq_true', List.any_eq_false]
    constructor
    · intro h a ha
      have := h (upperChars a)
        (List.mem_map.mpr ⟨a, ha, rfl⟩)
      simpa [pySubstr] using this
    · intro h x hx
      rcases List.mem_map.mp hx with ⟨a, ha, rfl⟩
      simpa [pySubstr] using h a ha
  constructor
  · rintro ⟨h1, h2⟩
    exact ⟨h1, (hpred p.2).mp h2⟩
  · rintro ⟨h1, h2⟩
    exact ⟨h1, (hpred p.2).mpr h2⟩

/-- The store state read by `populate_consumers_route`: the consumer
numbers present (keys of `consumer_map`; `consumer_number` is unique so it
stands in for `consumer.id`), the route area codes present (keys of
`route_map`), and the consumers that already have a `ConsumerRouteAssignment`
(`assigned_consumer_ids`). -/
structure RouteStore where
  consumers : List String
  routes : List String
  assigned : List String
  deriving Repr, DecidableEq

/-- A staged `ConsumerRouteAssignment(consumer=..., route=...)`. -/
structure RouteAssignment where
  consumer : String
  route : String
  deriving Repr, DecidableEq

/-- Python `str.strip()`: drop leading and trailing whitespace. -/
def stripChars (cs : List Char) : List Char :=
  ((cs.dropWhile Char.isWhitespace).reverse.dropWhile Char.isWhitespace).reverse

/-- `area_code_desc.split('-')[0].strip()`: the part before the first
hyphen, stripped. -/
def areaCodeOf (area_code_desc : String) : String :=
  ⟨stripChars (area_code_desc.toList.takeWhile (fun c => c ≠ '-'))⟩

/-- The mutable state of the row loop of `populate_consumers_route`:
staged assignments, consumers staged in this batch, and the two skip
counters. -/
structure RouteStaging where
  assignments : List RouteAssignment
  processed : List String
  skipped_already : Nat
  skipped_missing : Nat
  deriving Repr, DecidableEq

/-- The row loop of `populate_consumers_route` (lines 48–79): per row,
skip on blank `ConsumerNumber`/`AreaCodeDesc`, skip when consumer or
route is unresolved, skip (counting "already assigned") when the consumer
has an assignment in the store or earlier in this batch, otherwise stage
the assignment and mark the consumer processed. -/
def routeLoop (store : RouteStore) : RouteStaging → List Row → RouteStaging
  | st, [] => st
  | st, r :: rs =>
    if r.ConsumerNumber = "" ∨ r.AreaCodeDesc = "" then
      routeLoop store
        { st with skipped_missing := st.skipped_missing + 1 } rs
    else
      if ¬store.consumers.contains r.ConsumerNumber
          ∨ ¬store.routes.contains (areaCodeOf r.AreaCodeDesc) then
        routeLoop store
          { st with skipped_missing := st.skipped_missing + 1 } rs
      else
        if store.assigned.contains r.ConsumerNumber
            ∨ st.processed.contains r.ConsumerNumber then
          routeLoop store
            { st with skipped_already := st.skipped_already + 1 } rs
        else
          routeLoop store
            { st with
              assignments := st.assignments
                ++ [⟨r.ConsumerNumber, areaCodeOf r.AreaCodeDesc⟩]
              processed := st.processed ++ [r.ConsumerNumber] } rs

/-- `populate_consumers_route`'s staged `assignments_to_create`, from the
empty staging state. -/
def routeAssignmentsToCreate (store : RouteStore) (rows : List Row) :
    RouteStaging :=
  routeLoop store ⟨[], [], 0, 0⟩ rows

/-- Loop invariant of the route-assignment loop: staged consumers are
pairwise distinct, each is recorded in `processed`, and none is already
assigned in the store. -/
theorem routeLoop_invariant (store : RouteStore) :
    ∀ (rows : List Row) (st : RouteStaging),
      ((st.assignments.map (fun a => a.consumer)).Nodup
        ∧ (∀ a ∈ st.assignments, a.consumer ∈ st.processed)
        ∧ (∀ a ∈ st.assignments, a.consumer ∉ store.assigned)) →
      (((routeLoop store st rows).assignments.map
          (fun a => a.consumer)).Nodup
        ∧ (∀ a ∈ (routeLoop store st rows).assignments,
            a.consumer ∈ (routeLoop store st rows).processed)
        ∧ (∀ a ∈ (routeLoop store st rows).assignments,
            a.consumer ∉ store.assigned)) := by
  intro rows
  induction rows with
  | nil =>
    intro st h
    simpa [routeLoop] using h
  | cons r rs ih =>
    intro st h
    rw [routeLoop]
    split
    · exact ih _ (by simpa using h)
    · split
      · exact ih _ (by simpa using h)
      · split
        · exact ih _ (by simpa using h)
        · case isFalse _ _ h3 =>
          rcases h with ⟨h1, h2, hA⟩
          have hproc : r.ConsumerNumber ∉ st.processed := by
            intro hc
            exact h3 (Or.inr (by simpa using hc))
          have hass : r.ConsumerNumber ∉ store.assigned := by
            intro hc
            exact h3 (Or.inl (by simpa using hc))
          apply ih
          refine ⟨?_, ?_, ?_⟩
          · simp only [List.map_append, List.map_cons, List.map_nil]
            rw [List.nodup_append]
            refine ⟨h1, List.nodup_singleton _, ?_⟩
            intro x hx hx'
            rcases List.mem_map.mp hx with ⟨a, ha, rfl⟩
            have : a.consumer = r.ConsumerNumber := by simpa using hx'
            exact hproc (this ▸ h2 a ha)
          · intro a ha
            simp only [List.mem_append, List.mem_cons, List.not_mem_nil,
              or_false] at ha
            rcases ha with ha | ha
            · exact List.mem_append_left _ (h2 a ha)
            · subst ha
              exact List.mem_append_right _ (by simp)
          · intro a ha
            simp only [List.mem_append, List.mem_cons, List.not_mem_nil,
              or_false] at ha
            rcases ha with ha | ha
            · exact hA a ha
            · subst ha
              exact hass

/-- Row accounting of the route-assignment loop: every row either stages
an assignment or bumps one of the two skip counters. -/
theorem routeLoop_count (store : RouteStore) :
    ∀ (rows : List Row) (st : RouteStaging),
      (routeLoop store st rows).assignments.length
        + (routeLoop store st rows).skipped_already
        + (routeLoop store st rows).skipped_missing
      = st.assignments.length + st.skipped_already + st.skipped_missing
        + rows.length := by
  intro rows
  induction rows with
  | nil =>
    intro st
    simp [routeLoop]
  | cons r rs ih =>
    intro st
    rw [routeLoop]
    split
    · rw [ih]
      simp
      omega
    · split
      · rw [ih]
        simp
        omega
      · split
        · rw [ih]
          simp
          omega
        · rw [ih]
          simp
          omega

/-- C6: `populate_consumers_route` stages at most one assignment per
consumer — the staged consumers are pairwise distinct and none of them
already has an assignment in the store (rows for such consumers are
skipped into the already-assigned / missing-data counters: assignments
plus the two skip counters account for every row). -/
theorem populate_consumers_route_one_per_consumer
    (store : RouteStore) (rows : List Row) :
    ((routeAssignmentsToCreate store rows).assignments.map
        (fun a => a.consumer)).Nodup
    ∧ (∀ a ∈ (routeAssignmentsToCreate store rows).assignments,
        a.consumer ∉ store.assigned)
    ∧ (routeAssignmentsToCreate store rows).assignments.length
        + (routeAssignmentsToCreate store rows).skipped_already
        + (routeAssignmentsToCreate store rows).skipped_missing
      = rows.length := by
  have h := routeLoop_invariant store rows ⟨[], [], 0, 0⟩ (by simp)
  have hc := routeLoop_count store rows ⟨[], [], 0, 0⟩
  exact ⟨h.1, h.2.2, by simpa using hc⟩

example :
    routeAssignmentsToCreate ⟨["C1"], ["R1"], []⟩
      [{ blankRow with ConsumerNumber := "C1", AreaCodeDesc := "R1-North" },
       { blankRow with ConsumerNumber := "C1", AreaCodeDesc := "R1-South" }]
    = ⟨[⟨"C1", "R1"⟩], ["C1"], 1, 0⟩ := by decide

/-- Modelled from the spec: `ProductVariant` (the products app's model file
is not in the repository snapshot; §3 gives it a unique `product_code`
natural key, a Product and a Unit reference, a size and a type tag).  The
size and the formatted name keep the raw CSV text of `NoOfCylinder`; no
claim depends on the parsed numeric value. -/
structure VariantRec where
  product_code : String
  name : String
  product : Option String
  unit : Option String
  size : String
  variant_type : String
  deriving Repr, DecidableEq

/-- Modelled from the spec: `ConnectionDetails` (the connections app's
model file is not in the repository snapshot; §3: unique `sv_number`
natural key, owned by exactly one resolvable Consumer, optional
connection-type and product-variant links).  The owning consumer is
identified by its unique `consumer_number`; the variant link by its unique
`product_code`; the date and the regulator count are kept as raw text. -/
structure ConnectionRec where
  consumer : String
  sv_number : String
  sv_date : Option String
  connection_type : Option String
  hist_code_description : String
  num_of_regulators : String
  product : Option String
  deriving Repr, DecidableEq

/-- Modelled from the spec: `Address` — free-form text owned by one
consumer (`object_id`), no uniqueness constraints. -/
structure AddressRec where
  object_id : String
  address_text : String
  deriving Repr, DecidableEq

/-- Modelled from the spec: `Contact` — free-form text owned by one
consumer (`object_id`), no uniqueness constraints. -/
structure ContactRec where
  object_id : String
  mobile_number : String
  deriving Repr, DecidableEq

/-- The slice of the relational store read and written by
`populate_consumers`: the five name-keyed registries pre-fetched in Step 1
and the five entity tables. -/
structure Store where
  categories : List String
  consumer_types : List String
  connection_types : List String
  products : List String
  units : List String
  consumers : List ConsumerRec
  variants : List VariantRec
  connections : List ConnectionRec
  addresses : List AddressRec
  contacts : List ContactRec
  deriving Repr, DecidableEq

/-- `Consumer.objects.values_list('consumer_number', flat=True)`. -/
def consumerNumbersOf (s : Store) : List String :=
  s.consumers.map (fun c => c.consumer_number)

/-- `ConnectionDetails.objects.values_list('sv_number', flat=True)`. -/
def svNumbersOf (s : Store) : List String :=
  s.connections.map (fun c => c.sv_number)

/-- `ProductVariant.objects.values_list('product_code', flat=True)`. -/
def variantCodesOf (s : Store) : List String :=
  s.variants.map (fun v => v.product_code)

/-- The `lpg_id` values present in the store (for the unique-when-present
constraint of `Consumer.lpg_id`). -/
def lpgIdsOf (s : Store) : List Nat :=
  s.consumers.filterMap (fun c => c.lpg_id)

/-- Insert one `Consumer` row, enforcing the constraints of
`consumers/models.py`: `consumer_number` unique, `lpg_id` unique when
present, `category` and `consumer_type` non-nullable. -/
def insertConsumer (s : Store) (c : ConsumerRec) : Except String Store :=
  if (consumerNumbersOf s).contains c.consumer_number then
    Except.error "unique violation: consumer_number"
  else if c.lpg_id.any (fun v => (lpgIdsOf s).contains v) then
    Except.error "unique violation: lpg_id"
  else if c.category.isNone || c.consumer_type.isNone then
    Except.error "not-null violation: category or consumer_type"
  else
    Except.ok { s with consumers := s.consumers ++ [c] }

/-- Modelled from the spec: insert one `ProductVariant` row — unique
`product_code`. -/
def insertVariant (s : Store) (v : VariantRec) : Except String Store :=
  if (variantCodesOf s).contains v.product_code then
    Except.error "unique violation: product_code"
  else
    Except.ok { s with variants := s.variants ++ [v] }

/-- Modelled from the spec: insert one `ConnectionDetails` row — unique
`sv_number`, owning consumer resolvable. -/
def insertConnection (s : Store) (c : ConnectionRec) : Except String Store :=
  if (svNumbersOf s).contains c.sv_number then
    Except.error "unique violation: sv_number"
  else if !(consumerNumbersOf s).contains c.consumer then
    Except.error "foreign-key violation: consumer"
  else
    Except.ok { s with connections := s.connections ++ [c] }

/-- Insert one `Address` row (no constraints). -/
def insertAddress (s : Store) (a : AddressRec) : Except String Store :=
  Except.ok { s with addresses := s.addresses ++ [a] }

/-- Insert one `Contact` row (no constraints). -/
def insertContact (s : Store) (c : ContactRec) : Except String Store :=
  Except.ok { s with contacts := s.contacts ++ [c] }

/-- Sequential fallible fold: run the inserts left to right, stopping at
the first failure (inside one transaction a raised exception propagates). -/
def foldE (f : Store → α → Except String Store) :
    Store → List α → Except String Store
  | s, [] => Except.ok s
  | s, x :: xs =>
    match f s x with
    | Except.error e => Except.error e
    | Except.ok s' => foldE f s' xs

/-- Split a list into chunks of `n` (fuel-driven structural recursion; the
fuel is the list length, enough since `n > 0` consumes at least one
element per step). -/
def chunksGo (n : Nat) : Nat → List α → List (List α)
  | 0, l => if l.isEmpty then [] else [l]
  | fuel + 1, l =>
    if l.isEmpty then []
    else l.take n :: chunksGo n fuel (l.drop n)

/-- Chunks of 2000, the `batch_size` used by every `bulk_create` call. -/
def chunks2000 (l : List α) : List (List α) :=
  chunksGo 2000 l.length l

/-- `Model.objects.bulk_create(objs, batch_size=2000)`: insert the rows in
chunks of 2000; each row insert can fail on a constraint violation, and a
failure anywhere aborts the rest. -/
def bulkCreate (f : Store → α → Except String Store) (s : Store)
    (l : List α) : Except String Store :=
  foldE (fun s chunk => foldE f s chunk) s (chunks2000 l)

/-- The `ProductVariant(...)` constructor call (lines 99–103):
`variant_type` is `DOMESTIC` only when the resolved consumer type's name
is exactly `Domestic`, else `COMMERCIAL`; the name is templated from the
type and the cylinder size (size text kept raw). -/
def mkVariant (consumer_types products units : List String) (r : Row) :
    VariantRec :=
  { product_code := r.ProdCode
  , name := (if dictGet consumer_types r.ConsumerTypeIdDesc = some "Domestic"
        then "Domestic" else "Commercial")
      ++ " Cylinder " ++ r.NoOfCylinder ++ "kg"
  , product := dictGet products "LPG Cylinder"
  , unit := dictGet units "kg"
  , size := r.NoOfCylinder
  , variant_type :=
      if dictGet consumer_types r.ConsumerTypeIdDesc = some "Domestic"
        then "DOMESTIC" else "COMMERCIAL" }

/-- The `ConnectionDetails(...)` constructor call (lines 109–114); the
product link starts absent and is patched after the variant bulk-insert. -/
def mkConnection (connection_types : List String) (r : Row) : ConnectionRec :=
  { consumer := r.ConsumerNumber
  , sv_number := r.SvNumber
  , sv_date := if r.SvDateInt ≠ "" then some r.SvDateInt else none
  , connection_type := dictGet connection_types r.InDocTypeIdDesc
  , hist_code_description := r.HistCodeDescription
  , num_of_regulators := r.NoOfDpr
  , product := none }

/-- The read-only context of the Step-5 loop: the post-insert
`consumer_map` key set, the Step-1 registries and existing-key sets. -/
structure Step5Ctx where
  consumerNums : List String
  consumer_types : List String
  connection_types : List String
  products : List String
  units : List String
  existingVariantCodes : List String
  existingConnNums : List String
  deriving Repr, DecidableEq

/-- The mutable state of the Step-5 loop: the four candidate lists, the
`variants_to_create` dict keys, the `sv_numbers_in_batch` set, and the
shrinking `new_consumer_numbers` set. -/
structure Staged5 where
  addresses : List AddressRec
  contacts : List ContactRec
  variants : List VariantRec
  variant_codes : List String
  connections : List ConnectionRec
  sv_batch : List String
  new_nums : List String
  deriving Repr, DecidableEq

/-- Lines 88–91: at the first row of each newly created consumer, stage
one Address and one Contact and drop the number from
`new_consumer_numbers`. -/
def step5A (st : Staged5) (r : Row) : Staged5 :=
  if st.new_nums.contains r.ConsumerNumber then
    { st with
      addresses := st.addresses ++ [⟨r.ConsumerNumber, r.Address⟩]
      contacts := st.contacts ++ [⟨r.ConsumerNumber, r.MobileNumber⟩]
      new_nums := st.new_nums.erase r.ConsumerNumber }
  else st

/-- Lines 93–103: stage a `ProductVariant` for a non-blank `ProdCode` not
existing in the store and not already in the `variants_to_create` dict. -/
def step5V (ctx : Step5Ctx) (st : Staged5) (r : Row) : Staged5 :=
  if r.ProdCode ≠ ""
      ∧ ¬ctx.existingVariantCodes.contains r.ProdCode
      ∧ ¬st.variant_codes.contains r.ProdCode then
    { st with
      variants := st.variants
        ++ [mkVariant ctx.consumer_types ctx.products ctx.units r]
      variant_codes := st.variant_codes ++ [r.ProdCode] }
  else st

/-- Lines 106–116: stage a `ConnectionDetails` for an `SvNumber` neither
existing in the store nor already staged in this batch. -/
def step5C (ctx : Step5Ctx) (st : Staged5) (r : Row) : Staged5 :=
  if ¬ctx.existingConnNums.contains r.SvNumber
      ∧ ¬st.sv_batch.contains r.SvNumber then
    { st with
      connections := st.connections
        ++ [mkConnection ctx.connection_types r]
      sv_batch := st.sv_batch ++ [r.SvNumber] }
  else st

/-- One iteration of the Step-5 loop: skip the whole row when the consumer
is unresolved (`if not consumer_obj: continue`), else the three staging
blocks in order. -/
def step5Row (ctx : Step5Ctx) (st : Staged5) (r : Row) : Staged5 :=
  if ¬ctx.consumerNums.contains r.ConsumerNumber then st
  else step5C ctx (step5V ctx (step5A st r) r) r

def step5Loop (ctx : Step5Ctx) : Staged5 → List Row → Staged5
  | st, [] => st
  | st, r :: rs => step5Loop ctx (step5Row ctx st r) rs

/-- The product-link patch (lines 124–126):
`df.loc[df['SvNumber'] == conn.sv_number, 'ProdCode'].iloc[0]` is the
`ProdCode` of the first row with the connection's `sv_number` (`.iloc[0]`
raises `IndexError` when no row matches), then
`conn.product = variant_map.get(prod_code)` — `none` when the code is not
among the store's variant codes after the variant bulk-insert. -/
def patchConnection (variantCodesAfter : List String) (rows : List Row)
    (c : ConnectionRec) : Except String ConnectionRec :=
  match rows.find? (fun r => r.SvNumber == c.sv_number) with
  | none => Except.error "IndexError: no row for sv_number"
  | some r =>
    Except.ok { c with
      product := if variantCodesAfter.contains r.ProdCode
        then some r.ProdCode else none }

/-- Fallible map, left to right, stopping at the first failure. -/
def mapE (f : α → Except String β) : List α → Except String (List β)
  | [] => Except.ok []
  | x :: xs =>
    match f x with
    | Except.error e => Except.error e
    | Except.ok y =>
      match mapE f xs with
      | Except.error e => Except.error e
      | Except.ok ys => Except.ok (y :: ys)

/-- The body of `Command.handle` inside `@transaction.atomic`: Step 1
pre-fetch, Step 2 consumer staging, Step 3 consumer bulk-insert, Step 4
`consumer_map` re-fetch, Step 5 related-record staging, Step 6 bulk-insert
of variants, the product-link patch, then addresses, contacts and
connections.  Any failure propagates as `Except.error`. -/
def candsOf (s : Store) (rows : List Row) : List ConsumerRec :=
  consumersToCreate s.categories s.consumer_types (consumerNumbersOf s) rows

/-- The Step-5 staging, given the post-insert store `s3` (whose consumers
are re-read for `consumer_map` in Step 4) and the original store `s`
(whose registries and existing-key sets were pre-fetched in Step 1). -/
def st5With (s3 s : Store) (rows : List Row) : Staged5 :=
  step5Loop
    ⟨consumerNumbersOf s3, s.consumer_types, s.connection_types,
      s.products, s.units, variantCodesOf s, svNumbersOf s⟩
    ⟨[], [], [], [], [], [],
      (candsOf s rows).map (fun c => c.consumer_number)⟩ rows

def runImportInner (s : Store) (rows : List Row) : Except String Store :=
  match bulkCreate insertConsumer s (candsOf s rows) with
  | Except.error e => Except.error e
  | Except.ok s3 =>
    match bulkCreate insertVariant s3 (st5With s3 s rows).variants with
    | Except.error e => Except.error e
    | Except.ok s6 =>
      match mapE (patchConnection (variantCodesOf s6) rows)
          (st5With s3 s rows).connections with
      | Except.error e => Except.error e
      | Except.ok patched =>
        match bulkCreate insertAddress s6 (st5With s3 s rows).addresses with
        | Except.error e => Except.error e
        | Except.ok s7 =>
          match bulkCreate insertContact s7 (st5With s3 s rows).contacts with
          | Except.error e => Except.error e
          | Except.ok s8 => bulkCreate insertConnection s8 patched

/-- `@transaction.atomic` around `handle`: if the inner run raises, the
transaction rolls back and the store is unchanged; otherwise the new store
is committed. -/
def runImport (s : Store) (rows : List Row) : Store :=
  match runImportInner s rows with
  | Except.ok s' => s'
  | Except.error _ => s

/-- C4: the consumer import is atomic — if any step of the inner run
raises (a staging error, a bulk-insert uniqueness / foreign-key / NOT NULL
violation in any chunk), the committed store equals the store before the
run; chunked insertion (batch_size 2000) never leaves a partially
committed result, because `@transaction.atomic` discards the whole draft. -/
theorem populate_consumers_atomic (s : Store) (rows : List Row) (e : String)
    (h : runImportInner s rows = Except.error e) :
    runImport s rows = s := by
  rw [runImport, h]

def c4Row : Row := { blankRow with ConsumerNumber := "C1" }

def emptyStore : Store := ⟨[], [], [], [], [], [], [], [], [], []⟩

/-- Witness for C4: on an empty store (in particular, empty registries) a
single new-consumer row stages a candidate with a `none` category, the
bulk insert hits the NOT NULL constraint mid-run — after the candidate was
staged — and the committed store is exactly the initial one. -/
theorem populate_consumers_atomic_witness :
    runImport emptyStore [c4Row] = emptyStore :=
  populate_consumers_atomic emptyStore [c4Row]
    "not-null violation: category or consumer_type" (by rfl)

theorem foldE_append (f : Store → α → Except String Store)
    (a b : List α) : ∀ s : Store,
    foldE f s (a ++ b)
      = match foldE f s a with
        | Except.error e => Except.error e
        | Except.ok s' => foldE f s' b := by
  induction a with
  | nil => intro s; simp [foldE]
  | cons x xs ih =>
    intro s
    rw [List.cons_append, foldE, foldE]
    cases f s x with
    | error e => rfl
    | ok s' => exact ih s'

/-- Folding chunk-by-chunk equals folding over the concatenation. -/
theorem foldE_chunks (f : Store → α → Except String Store) :
    ∀ (cs : List (List α)) (s : Store),
      foldE (fun s chunk => foldE f s chunk) s cs = foldE f s cs.flatten := by
  intro cs
  induction cs with
  | nil => intro s; simp [foldE, List.flatten]
  | cons c cs ih =>
    intro s
    rw [foldE, List.flatten_cons, foldE_append]
    cases h : foldE f s c with
    | error e => rfl
    | ok s' => exact ih s'

theorem chunksGo_join (n : Nat) (hn : 0 < n) :
    ∀ (fuel : Nat) (l : List α), l.length ≤ fuel →
      (chunksGo n fuel l).flatten = l := by
  intro fuel
  induction fuel with
  | zero =>
    intro l hl
    have : l = [] := List.length_eq_zero.mp (Nat.le_zero.mp hl)
    subst this
    simp [chunksGo]
  | succ fuel ih =>
    intro l hl
    by_cases he : l = []
    · subst he
      simp [chunksGo]
    · have hne : l.isEmpty = false := by
        simpa [List.isEmpty_iff] using he
      rw [chunksGo]
      simp only [hne, Bool.false_eq_true, if_false, List.flatten_cons]
      rw [ih (l.drop n) ?hfuel, List.take_append_drop]
      case hfuel =>
        have h1 : 0 < l.length := List.length_pos.mpr he
        have h2 : (l.drop n).length = l.length - n := List.length_drop n l
        omega

theorem chunks2000_join (l : List α) : (chunks2000 l).flatten = l :=
  chunksGo_join 2000 (by omega) l.length l (Nat.le_refl _)

/-- Chunking with `batch_size=2000` does not change which inserts run in
which order: `bulk_create` equals the plain sequential fold. -/
theorem bulkCreate_eq_foldE (f : Store → α → Except String Store)
    (s : Store) (l : List α) : bulkCreate f s l = foldE f s l := by
  rw [bulkCreate, foldE_chunks, chunks2000_join]

/-- A successful consumer bulk-insert appends exactly the staged rows and
touches nothing else. -/
theorem foldE_insertConsumer_ok :
    ∀ (l : List ConsumerRec) (s s' : Store),
      foldE insertConsumer s l = Except.ok s' →
      s' = { s with consumers := s.consumers ++ l } := by
  intro l
  induction l with
  | nil =>
    intro s s' h
    simp only [foldE, Except.ok.injEq] at h
    subst h
    simp
  | cons c cs ih =>
    intro s s' h
    rw [foldE] at h
    cases hi : insertConsumer s c with
    | error e =>
      rw [hi] at h
      exact Except.noConfusion h
    | ok s₁ =>
      rw [hi] at h
      have h2 : s₁ = { s with consumers := s.consumers ++ [c] } := by
        rw [insertConsumer] at hi
        split at hi
        · exact Except.noConfusion hi
        · split at hi
          · exact Except.noConfusion hi
          · split at hi
            · exact Except.noConfusion hi
            · injection hi with h3
              exact h3.symm
      subst h2
      have h1 := ih _ s' h
      rw [h1]
      simp [List.append_assoc]

theorem foldE_insertVariant_ok :
    ∀ (l : List VariantRec) (s s' : Store),
      foldE insertVariant s l = Except.ok s' →
      s' = { s with variants := s.variants ++ l } := by
  intro l
  induction l with
  | nil =>
    intro s s' h
    simp only [foldE, Except.ok.injEq] at h
    subst h
    simp
  | cons c cs ih =>
    intro s s' h
    rw [foldE] at h
    cases hi : insertVariant s c with
    | error e =>
      rw [hi] at h
      exact Except.noConfusion h
    | ok s₁ =>
      rw [hi] at h
      have h2 : s₁ = { s with variants := s.variants ++ [c] } := by
        rw [insertVariant] at hi
        split at hi
        · exact Except.noConfusion hi
        · injection hi with h3
          exact h3.symm
      subst h2
      have h1 := ih _ s' h
      rw [h1]
      simp [List.append_assoc]

theorem foldE_insertConnection_ok :
    ∀ (l : List ConnectionRec) (s s' : Store),
      foldE insertConnection s l = Except.ok s' →
      s' = { s with connections := s.connections ++ l } := by
  intro l
  induction l with
  | nil =>
    intro s s' h
    simp only [foldE, Except.ok.injEq] at h
    subst h
    simp
  | cons c cs ih =>
    intro s s' h
    rw [foldE] at h
    cases hi : insertConnection s c with
    | error e =>
      rw [hi] at h
      exact Except.noConfusion h
    | ok s₁ =>
      rw [hi] at h
      have h2 : s₁ = { s with connections := s.connections ++ [c] } := by
        rw [insertConnection] at hi
        split at hi
        · exact Except.noConfusion hi
        · split at hi
          · exact Except.noConfusion hi
          · injection hi with h3
            exact h3.symm
      subst h2
      have h1 := ih _ s' h
      rw [h1]
      simp [List.append_assoc]

/-- Address inserts never fail and append exactly the staged rows. -/
theorem foldE_insertAddress_ok :
    ∀ (l : List AddressRec) (s : Store),
      foldE insertAddress s l
        = Except.ok { s with addresses := s.addresses ++ l } := by
  intro l
  induction l with
  | nil =>
    intro s
    simp [foldE]
  | cons a as ih =>
    intro s
    rw [foldE, insertAddress]
    simp [ih, List.append_assoc]

/-- Contact inserts never fail and append exactly the staged rows. -/
theorem foldE_insertContact_ok :
    ∀ (l : List ContactRec) (s : Store),
      foldE insertContact s l
        = Except.ok { s with contacts := s.contacts ++ l } := by
  intro l
  induction l with
  | nil =>
    intro s
    simp [foldE]
  | cons a as ih =>
    intro s
    rw [foldE, insertContact]
    simp [ih, List.append_assoc]

/-- A successful product-link patch keeps every field but `product`, and
sets `product` from the `ProdCode` of the FIRST row carrying the
connection's `sv_number`. -/
theorem patchConnection_ok (codes : List String) (rows : List Row)
    (c c' : ConnectionRec)
    (h : patchConnection codes rows c = Except.ok c') :
    c'.sv_number = c.sv_number
    ∧ ∃ r, rows.find? (fun row => row.SvNumber == c.sv_number) = some r
        ∧ c' = { c with product := (if codes.contains r.ProdCode
            then some r.ProdCode else none) } := by
  rw [patchConnection] at h
  cases hf : rows.find? (fun r => r.SvNumber == c.sv_number) with
  | none =>
    rw [hf] at h
    exact Except.noConfusion h
  | some r =>
    rw [hf] at h
    injection h with h1
    subst h1
    exact ⟨rfl, r, rfl, rfl⟩

theorem mapE_ok_mem {f : α → Except String β} :
    ∀ (l : List α) (l' : List β), mapE f l = Except.ok l' →
      ∀ y ∈ l', ∃ x ∈ l, f x = Except.ok y := by
  intro l
  induction l with
  | nil =>
    intro l' h y hy
    simp only [mapE, Except.ok.injEq] at h
    subst h
    cases hy
  | cons x xs ih =>
    intro l' h y hy
    rw [mapE] at h
    cases hx : f x with
    | error e =>
      rw [hx] at h
      exact Except.noConfusion h
    | ok y₀ =>
      rw [hx] at h
      cases hm : mapE f xs with
      | error e =>
        rw [hm] at h
        exact Except.noConfusion h
      | ok ys =>
        rw [hm] at h
        injection h with h1
        subst h1
        rcases List.mem_cons.mp hy with rfl | hy
        · exact ⟨x, List.mem_cons_self _ _, hx⟩
        · rcases ih ys hm y hy with ⟨x', hx', hfx⟩
          exact ⟨x', List.mem_cons_of_mem _ hx', hfx⟩

/-- The patch pass leaves the multiset of staged `sv_number`s unchanged. -/
theorem mapE_patch_sv (codes : List String) (rows : List Row) :
    ∀ (l l' : List ConnectionRec),
      mapE (patchConnection codes rows) l = Except.ok l' →
      l'.map (fun c => c.sv_number) = l.map (fun c => c.sv_number) := by
  intro l
  induction l with
  | nil =>
    intro l' h
    simp only [mapE, Except.ok.injEq] at h
    subst h
    rfl
  | cons c cs ih =>
    intro l' h
    rw [mapE] at h
    cases hx : patchConnection codes rows c with
    | error e =>
      rw [hx] at h
      exact Except.noConfusion h
    | ok c' =>
      rw [hx] at h
      cases hm : mapE (patchConnection codes rows) cs with
      | error e =>
        rw [hm] at h
        exact Except.noConfusion h
      | ok cs' =>
        rw [hm] at h
        injection h with h1
        subst h1
        simp only [List.map_cons]
        rw [(patchConnection_ok codes rows c c' hx).1, ih cs' hm]

/-- The Address/Contact block touches neither variants nor connections. -/
theorem step5A_pres (st : Staged5) (r : Row) :
    (step5A st r).variant_codes = st.variant_codes
    ∧ (step5A st r).variants = st.variants
    ∧ (step5A st r).sv_batch = st.sv_batch
    ∧ (step5A st r).connections = st.connections := by
  rw [step5A]
  split <;> exact ⟨rfl, rfl, rfl, rfl⟩

/-- The variant block touches neither connections nor the consumer sets. -/
theorem step5V_pres (ctx : Step5Ctx) (st : Staged5) (r : Row) :
    (step5V ctx st r).sv_batch = st.sv_batch
    ∧ (step5V ctx st r).connections = st.connections
    ∧ (step5V ctx st r).new_nums = st.new_nums
    ∧ (step5V ctx st r).addresses = st.addresses
    ∧ (step5V ctx st r).contacts = st.contacts := by
  rw [step5V]
  split <;> exact ⟨rfl, rfl, rfl, rfl, rfl⟩

/-- The connection block touches neither variants nor the consumer sets. -/
theorem step5C_pres (ctx : Step5Ctx) (st : Staged5) (r : Row) :
    (step5C ctx st r).variant_codes = st.variant_codes
    ∧ (step5C ctx st r).variants = st.variants
    ∧ (step5C ctx st r).new_nums = st.new_nums
    ∧ (step5C ctx st r).addresses = st.addresses
    ∧ (step5C ctx st r).contacts = st.contacts := by
  rw [step5C]
  split <;> exact ⟨rfl, rfl, rfl, rfl, rfl⟩

/-- One Step-5 iteration only ever grows the staged key sets. -/
theorem step5Row_mono (ctx : Step5Ctx) (st : Staged5) (r : Row) :
    (∀ x ∈ st.variant_codes, x ∈ (step5Row ctx st r).variant_codes)
    ∧ (∀ x ∈ st.sv_batch, x ∈ (step5Row ctx st r).sv_batch) := by
  rw [step5Row]
  split
  · exact ⟨fun x hx => hx, fun x hx => hx⟩
  · constructor
    · intro x hx
      rw [(step5C_pres ctx _ r).1]
      rw [step5V]
      split
      · rw [(step5A_pres st r).1]
        exact List.mem_append_left _ hx
      · rw [(step5A_pres st r).1]
        exact hx
    · intro x hx
      rw [step5C]
      split
      · rw [(step5V_pres ctx _ r).1, (step5A_pres st r).2.2.1]
        exact List.mem_append_left _ hx
      · rw [(step5V_pres ctx _ r).1, (step5A_pres st r).2.2.1]
        exact hx

/-- After one Step-5 iteration on a row whose consumer is resolved, the
row's `ProdCode` is blank, already existing, or staged, and the row's
`SvNumber` is already existing or staged. -/
theorem step5Row_covers (ctx : Step5Ctx) (st : Staged5) (r : Row)
    (hc : ctx.consumerNums.contains r.ConsumerNumber = true) :
    (r.ProdCode = "" ∨ ctx.existingVariantCodes.contains r.ProdCode = true
      ∨ r.ProdCode ∈ (step5Row ctx st r).variant_codes)
    ∧ (ctx.existingConnNums.contains r.SvNumber = true
      ∨ r.SvNumber ∈ (step5Row ctx st r).sv_batch) := by
  rw [step5Row, if_neg (fun hn => hn hc)]
  constructor
  · by_cases h1 : r.ProdCode = ""
    · exact Or.inl h1
    · by_cases h2 : ctx.existingVariantCodes.contains r.ProdCode = true
      · exact Or.inr (Or.inl h2)
      · refine Or.inr (Or.inr ?_)
        rw [(step5C_pres ctx _ r).1]
        rw [step5V]
        by_cases h3 : (step5A st r).variant_codes.contains r.ProdCode = true
        · rw [if_neg (fun hg => hg.2.2 h3)]
          simpa using h3
        · rw [if_pos ⟨h1, h2, h3⟩]
          exact List.mem_append_right _ (by simp)
  · by_cases h4 : ctx.existingConnNums.contains r.SvNumber = true
    · exact Or.inl h4
    · refine Or.inr ?_
      rw [step5C]
      by_cases h5 : (step5V ctx (step5A st r) r).sv_batch.contains
          r.SvNumber = true
      · rw [if_neg (fun hg => hg.2 h5)]
        simpa using h5
      · rw [if_pos ⟨h4, h5⟩]
        exact List.mem_append_right _ (by simp)

/-- A Step-5 iteration is a no-op when nothing is left to stage: no new
consumer numbers, the `ProdCode` blank or already existing, and the
`SvNumber` already existing. -/
theorem step5Row_noop (ctx : Step5Ctx) (st : Staged5) (r : Row)
    (hn : st.new_nums = [])
    (hv : r.ProdCode = "" ∨ ctx.existingVariantCodes.contains r.ProdCode = true)
    (hs : ctx.existingConnNums.contains r.SvNumber = true) :
    step5Row ctx st r = st := by
  rw [step5Row]
  split
  · rfl
  · have hA : step5A st r = st := by
      rw [step5A, hn]
      simp
    rw [hA]
    have hV : step5V ctx st r = st := by
      rw [step5V, if_neg]
      rintro ⟨hg1, hg2, _⟩
      rcases hv with hv | hv
      · exact hg1 hv
      · exact hg2 hv
    rw [hV]
    rw [step5C, if_neg]
    rintro ⟨hg1, _⟩
    exact hg1 hs

/-- The `variants_to_create` dict keys track the staged variants' codes,
and `sv_numbers_in_batch` tracks the staged connections' numbers, across
one Step-5 iteration. -/
theorem step5Row_parallel (ctx : Step5Ctx) (st : Staged5) (r : Row)
    (h1 : st.variant_codes = st.variants.map (fun v => v.product_code))
    (h2 : st.sv_batch = st.connections.map (fun c => c.sv_number)) :
    (step5Row ctx st r).variant_codes
      = (step5Row ctx st r).variants.map (fun v => v.product_code)
    ∧ (step5Row ctx st r).sv_batch
      = (step5Row ctx st r).connections.map (fun c => c.sv_number) := by
  rw [step5Row]
  split
  · exact ⟨h1, h2⟩
  · have hA1 : (step5A st r).variant_codes
        = (step5A st r).variants.map (fun v => v.product_code) := by
      rw [(step5A_pres st r).1, (step5A_pres st r).2.1]
      exact h1
    have hA2 : (step5A st r).sv_batch
        = (step5A st r).connections.map (fun c => c.sv_number) := by
      rw [(step5A_pres st r).2.2.1, (step5A_pres st r).2.2.2]
      exact h2
    have hV1 : (step5V ctx (step5A st r) r).variant_codes
        = (step5V ctx (step5A st r) r).variants.map
          (fun v => v.product_code) := by
      rw [step5V]
      split
      · simp only [List.map_append, List.map_cons, List.map_nil]
        rw [hA1]
        rfl
      · exact hA1
    have hV2 : (step5V ctx (step5A st r) r).sv_batch
        = (step5V ctx (step5A st r) r).connections.map
          (fun c => c.sv_number) := by
      rw [(step5V_pres ctx _ r).1, (step5V_pres ctx _ r).2.1]
      exact hA2
    constructor
    · rw [(step5C_pres ctx _ r).1, (step5C_pres ctx _ r).2.1]
      exact hV1
    · rw [step5C]
      split
      · simp only [List.map_append, List.map_cons, List.map_nil]
        rw [hV2]
        rfl
      · exact hV2

/-- The Step-5 loop only ever grows the staged key sets. -/
theorem step5Loop_mono (ctx : Step5Ctx) :
    ∀ (rows : List Row) (st : Staged5),
      (∀ x ∈ st.variant_codes, x ∈ (step5Loop ctx st rows).variant_codes)
      ∧ (∀ x ∈ st.sv_batch, x ∈ (step5Loop ctx st rows).sv_batch) := by
  intro rows
  induction rows with
  | nil => intro st; exact ⟨fun x hx => hx, fun x hx => hx⟩
  | cons r rs ih =>
    intro st
    rw [step5Loop]
    exact ⟨fun x hx => (ih _).1 x ((step5Row_mono ctx st r).1 x hx),
           fun x hx => (ih _).2 x ((step5Row_mono ctx st r).2 x hx)⟩

/-- After the whole Step-5 loop, every resolved row's non-blank `ProdCode`
is existing-or-staged and its `SvNumber` is existing-or-staged. -/
theorem step5Loop_covers (ctx : Step5Ctx) :
    ∀ (rows : List Row) (st : Staged5), ∀ r ∈ rows,
      ctx.consumerNums.contains r.ConsumerNumber = true →
      ((r.ProdCode = "" ∨ ctx.existingVariantCodes.contains r.ProdCode = true
        ∨ r.ProdCode ∈ (step5Loop ctx st rows).variant_codes)
      ∧ (ctx.existingConnNums.contains r.SvNumber = true
        ∨ r.SvNumber ∈ (step5Loop ctx st rows).sv_batch)) := by
  intro rows
  induction rows with
  | nil =>
    intro st r hr
    cases hr
  | cons r₀ rs ih =>
    intro st r hr hc
    rw [step5Loop]
    rcases List.mem_cons.mp hr with rfl | hr
    · have h := step5Row_covers ctx st r hc
      constructor
      · rcases h.1 with h' | h' | h'
        · exact Or.inl h'
        · exact Or.inr (Or.inl h')
        · exact Or.inr (Or.inr ((step5Loop_mono ctx rs _).1 _ h'))
      · rcases h.2 with h' | h'
        · exact Or.inl h'
        · exact Or.inr ((step5Loop_mono ctx rs _).2 _ h')
    · exact ih _ r hr hc

/-- The Step-5 loop is a no-op when nothing is left to stage. -/
theorem step5Loop_noop (ctx : Step5Ctx) :
    ∀ (rows : List Row) (st : Staged5),
      st.new_nums = [] →
      (∀ r ∈ rows,
        (r.ProdCode = ""
          ∨ ctx.existingVariantCodes.contains r.ProdCode = true)
        ∧ ctx.existingConnNums.contains r.SvNumber = true) →
      step5Loop ctx st rows = st := by
  intro rows
  induction rows with
  | nil =>
    intro st _ _
    rfl
  | cons r rs ih =>
    intro st hn hall
    rw [step5Loop]
    rw [step5Row_noop ctx st r hn (hall r (by simp)).1 (hall r (by simp)).2]
    exact ih st hn (fun r' hr' => hall r' (List.mem_cons_of_mem _ hr'))

/-- `variants_to_create` keys track staged variants' codes and
`sv_numbers_in_batch` tracks staged connections' numbers across the loop. -/
theorem step5Loop_parallel (ctx : Step5Ctx) :
    ∀ (rows : List Row) (st : Staged5),
      st.variant_codes = st.variants.map (fun v => v.product_code) →
      st.sv_batch = st.connections.map (fun c => c.sv_number) →
      ((step5Loop ctx st rows).variant_codes
        = (step5Loop ctx st rows).variants.map (fun v => v.product_code)
      ∧ (step5Loop ctx st rows).sv_batch
        = (step5Loop ctx st rows).connections.map (fun c => c.sv_number)) := by
  intro rows
  induction rows with
  | nil =>
    intro st h1 h2
    exact ⟨h1, h2⟩
  | cons r rs ih =>
    intro st h1 h2
    rw [step5Loop]
    have h := step5Row_parallel ctx st r h1 h2
    exact ih _ h.1 h.2

/-- The store after a successful consumer bulk-insert (Step 3). -/
def s3Of (s : Store) (rows : List Row) : Store :=
  { s with consumers := s.consumers ++ candsOf s rows }

/-- The Step-5 context of a successful run: `consumer_map` read back after
Step 3, registries and existing-key sets pre-fetched in Step 1. -/
def ctxOf (s : Store) (rows : List Row) : Step5Ctx :=
  ⟨consumerNumbersOf (s3Of s rows), s.consumer_types, s.connection_types,
    s.products, s.units, variantCodesOf s, svNumbersOf s⟩

/-- The Step-5 staging of a successful run. -/
def st5Of (s : Store) (rows : List Row) : Staged5 :=
  st5With (s3Of s rows) s rows

/-- Decomposition of a successful run: the committed store is the initial
one extended by exactly the staged candidates, and the committed
connections are the staged ones after the product-link patch. -/
theorem runImportInner_ok_decompose (s s₁ : Store) (rows : List Row)
    (h : runImportInner s rows = Except.ok s₁) :
    ∃ patched,
      mapE (patchConnection
          (variantCodesOf { s3Of s rows with
            variants := (s3Of s rows).variants ++ (st5Of s rows).variants })
          rows)
        (st5Of s rows).connections = Except.ok patched
      ∧ s₁ = { s3Of s rows with
          variants := (s3Of s rows).variants ++ (st5Of s rows).variants
          addresses := (s3Of s rows).addresses ++ (st5Of s rows).addresses
          contacts := (s3Of s rows).contacts ++ (st5Of s rows).contacts
          connections := (s3Of s rows).connections ++ patched } := by
  rw [runImportInner] at h
  split at h
  · exact Except.noConfusion h
  · next s3 heq =>
    rw [bulkCreate_eq_foldE] at heq
    have hs3 : s3 = s3Of s rows := foldE_insertConsumer_ok _ _ _ heq
    subst hs3
    split at h
    · exact Except.noConfusion h
    · next s6 heq2 =>
      rw [bulkCreate_eq_foldE] at heq2
      have hs6 : s6 = { s3Of s rows with
          variants := (s3Of s rows).variants ++ (st5Of s rows).variants } :=
        foldE_insertVariant_ok _ _ _ heq2
      subst hs6
      split at h
      · exact Except.noConfusion h
      · next patched heq3 =>
        split at h
        · next e heq4 =>
          rw [bulkCreate_eq_foldE, foldE_insertAddress_ok] at heq4
          exact Except.noConfusion heq4
        · next s7 heq4 =>
          rw [bulkCreate_eq_foldE, foldE_insertAddress_ok] at heq4
          injection heq4 with heq4
          subst heq4
          split at h
          · next e heq5 =>
            rw [bulkCreate_eq_foldE, foldE_insertContact_ok] at heq5
            exact Except.noConfusion heq5
          · next s8 heq5 =>
            rw [bulkCreate_eq_foldE, foldE_insertContact_ok] at heq5
            injection heq5 with heq5
            subst heq5
            rw [bulkCreate_eq_foldE] at h
            have hs1 := foldE_insertConnection_ok _ _ _ h
            refine ⟨patched, heq3, ?_⟩
            rw [hs1]
            rfl

theorem bulkCreate_nil (f : Store → α → Except String Store) (s : Store) :
    bulkCreate f s [] = Except.ok s := rfl

theorem mem_dropDupBy (seen : List String) (rows : List Row) :
    ∀ r ∈ dropDupBy seen rows, r ∈ rows := by
  induction rows generalizing seen with
  | nil =>
    intro r hr
    cases hr
  | cons r₀ rs ih =>
    intro r hr
    rw [dropDupBy] at hr
    split at hr
    · exact List.mem_cons_of_mem _ (ih _ r hr)
    · rcases List.mem_cons.mp hr with rfl | hr
      · exact List.mem_cons_self _ _
      · exact List.mem_cons_of_mem _ (ih _ r hr)

/-- When every row's `ConsumerNumber` already exists, nothing is staged. -/
theorem consumersToCreate_nil (cats cts existing : List String)
    (rows : List Row)
    (hall : ∀ r ∈ rows, existing.contains r.ConsumerNumber = true) :
    consumersToCreate cats cts existing rows = [] := by
  rw [consumersToCreate]
  have hfil : (dropDuplicatesByConsumer rows).filter
      (fun r => !existing.contains r.ConsumerNumber) = [] := by
    rw [List.filter_eq_nil_iff]
    intro r hr
    have := hall r (mem_dropDupBy [] rows r hr)
    simpa using this
  rw [hfil]
  rfl

/-- Every row's `ConsumerNumber` is either already existing or among the
staged candidates' numbers. -/
theorem consumersToCreate_covers (cats cts existing : List String)
    (rows : List Row) :
    ∀ r ∈ rows, r.ConsumerNumber ∈ existing
      ∨ r.ConsumerNumber ∈ (consumersToCreate cats cts existing rows).map
          (fun c => c.consumer_number) := by
  intro r hr
  by_cases hm : r.ConsumerNumber ∈ existing
  · exact Or.inl hm
  · refine Or.inr ?_
    have hsome : (rows.find?
        (fun r' => r'.ConsumerNumber == r.ConsumerNumber)).isSome := by
      rw [List.find?_isSome]
      exact ⟨r, hr, by simp⟩
    rcases Option.isSome_iff_exists.mp hsome with ⟨r₀, hr₀⟩
    have hfil := consumersToCreate_filter cats cts existing rows
      r.ConsumerNumber
    rw [if_neg (by simpa using hm)] at hfil
    rw [hr₀] at hfil
    have hmem : mkConsumer cats cts r₀
        ∈ (consumersToCreate cats cts existing rows).filter
          (fun c => c.consumer_number == r.ConsumerNumber) := by
      rw [hfil]
      simp
    have hmem2 := List.mem_filter.mp hmem
    refine List.mem_map.mpr ⟨_, hmem2.1, ?_⟩
    simpa using hmem2.2

/-- C10: in a successful consumer import, every newly committed
connection's product link is resolved, after the variant bulk-insert, to
the variant whose `product_code` equals the `ProdCode` of the FIRST row
(in original file order) whose `SvNumber` equals the connection's
`sv_number` — later duplicate rows' codes are ignored — and an unmatched
code leaves the link absent (`none`) rather than raising. -/
theorem populate_consumers_product_link (s s₁ : Store) (rows : List Row)
    (h : runImportInner s rows = Except.ok s₁) :
    ∀ c ∈ s₁.connections, c ∉ s.connections →
      ∃ r, rows.find? (fun row => row.SvNumber == c.sv_number) = some r
        ∧ c.product = (if (variantCodesOf s₁).contains r.ProdCode
            then some r.ProdCode else none) := by
  rcases runImportInner_ok_decompose s s₁ rows h with ⟨patched, hp, hs1⟩
  intro c hc hnc
  have hc' : c ∈ patched := by
    rw [hs1] at hc
    rcases List.mem_append.mp hc with hcl | hcr
    · exact absurd hcl hnc
    · exact hcr
  rcases mapE_ok_mem _ _ hp c hc' with ⟨c₀, _, hpc⟩
  rcases patchConnection_ok _ _ _ _ hpc with ⟨hsv, r, hfind, hceq⟩
  refine ⟨r, ?_, ?_⟩
  · rw [hsv]
    exact hfind
  · rw [hceq, hs1]
    rfl

def s5w : Store :=
  { categories := ["Gen"], consumer_types := ["Domestic"]
  , connection_types := ["Refill"], products := ["LPG Cylinder"]
  , units := ["kg"], consumers := [], variants := [], connections := []
  , addresses := [], contacts := [] }

def rowF : Row := { blankRow with
  ConsumerNumber := "C1"
  ConsumerName := "Asha"
  Category := "Gen"
  ConsumerTypeIdDesc := "Domestic"
  SvNumber := "S1"
  ProdCode := "P1"
  NoOfCylinder := "14.2"
  Address := "12 Main"
  MobileNumber := "999"
  InDocTypeIdDesc := "Refill" }

/-- The store after a successful import of `[rowF]` into `s5w`. -/
def s5wRes : Store :=
  { categories := ["Gen"], consumer_types := ["Domestic"]
  , connection_types := ["Refill"], products := ["LPG Cylinder"]
  , units := ["kg"]
  , consumers := [⟨"C1", "Asha", "", "", none, none, none, false,
      some "Gen", some "Domestic"⟩]
  , variants := [⟨"P1", "Domestic Cylinder 14.2kg", some "LPG Cylinder",
      some "kg", "14.2", "DOMESTIC"⟩]
  , connections := [⟨"C1", "S1", none, some "Refill", "", "", some "P1"⟩]
  , addresses := [⟨"C1", "12 Main"⟩]
  , contacts := [⟨"C1", "999"⟩] }

def linkConn : ConnectionRec := ⟨"C1", "S1", none, some "Refill", "", "", some "P1"⟩

/-- Witness for C10: in the concrete run of `[rowF]` the committed
connection `S1` links to the variant of `P1`, the `ProdCode` of the first
(only) row carrying `S1`. -/
theorem populate_consumers_product_link_witness :
    ∃ r, [rowF].find? (fun row => row.SvNumber == linkConn.sv_number) = some r
      ∧ linkConn.product = (if (variantCodesOf s5wRes).contains r.ProdCode
          then some r.ProdCode else none) :=
  populate_consumers_product_link s5w s5wRes [rowF] (by rfl) linkConn
    (by decide) (by decide)

/-- A run that stages nothing commits nothing and succeeds. -/
theorem runImportInner_noop (t : Store) (rows : List Row)
    (h1 : candsOf t rows = [])
    (h2 : st5With t t rows = ⟨[], [], [], [], [], [], []⟩) :
    runImportInner t rows = Except.ok t := by
  simp only [runImportInner, h1, h2, bulkCreate_nil, mapE]

theorem st5Of_eq (s : Store) (rows : List Row) :
    st5Of s rows = step5Loop (ctxOf s rows)
      ⟨[], [], [], [], [], [],
        (candsOf s rows).map (fun c => c.consumer_number)⟩ rows := rfl

/-- C5: running the consumer import twice on the same file and store is
idempotent — after a successful first run producing `s₁`, the second run
stages zero new Consumer candidates (`candsOf s₁ rows = []`), zero new
Address, Contact, ProductVariant and Connection candidates (its whole
Step-5 staging is empty), and commits nothing: it succeeds returning `s₁`
unchanged, because every natural key of the file is now in the pre-fetched
existing-key sets. -/
theorem populate_consumers_idempotent (s s₁ : Store) (rows : List Row)
    (h : runImportInner s rows = Except.ok s₁) :
    candsOf s₁ rows = []
    ∧ st5With s₁ s₁ rows = ⟨[], [], [], [], [], [], []⟩
    ∧ runImportInner s₁ rows = Except.ok s₁ := by
  rcases runImportInner_ok_decompose s s₁ rows h with ⟨patched, hp, hs1⟩
  have hcons : s₁.consumers = s.consumers ++ candsOf s rows := by
    rw [hs1]
    rfl
  have hvari : s₁.variants = s.variants ++ (st5Of s rows).variants := by
    rw [hs1]
    rfl
  have hconn : s₁.connections = s.connections ++ patched := by
    rw [hs1]
    rfl
  have hG1 : ∀ r ∈ rows, r.ConsumerNumber ∈ consumerNumbersOf s₁ := by
    intro r hr
    rw [consumerNumbersOf, hcons, List.map_append]
    rcases consumersToCreate_covers s.categories s.consumer_types
        (consumerNumbersOf s) rows r hr with hcase | hcase
    · exact List.mem_append_left _ hcase
    · exact List.mem_append_right _ hcase
  have hA : candsOf s₁ rows = [] := by
    rw [candsOf]
    apply consumersToCreate_nil
    intro r hr
    simpa using hG1 r hr
  have hctxcov : ∀ r ∈ rows,
      (consumerNumbersOf (s3Of s rows)).contains r.ConsumerNumber = true := by
    intro r hr
    have heq : consumerNumbersOf (s3Of s rows) = consumerNumbersOf s₁ := by
      rw [hs1]
      rfl
    rw [heq]
    simpa using hG1 r hr
  have hpar := step5Loop_parallel (ctxOf s rows) rows
    ⟨[], [], [], [], [], [],
      (candsOf s rows).map (fun c => c.consumer_number)⟩ rfl rfl
  rw [← st5Of_eq] at hpar
  have hcov := fun (r : Row) (hr : r ∈ rows) =>
    step5Loop_covers (ctxOf s rows) rows
      ⟨[], [], [], [], [], [],
        (candsOf s rows).map (fun c => c.consumer_number)⟩
      r hr (hctxcov r hr)
  have hVC : ∀ r ∈ rows, r.ProdCode = ""
      ∨ (variantCodesOf s₁).contains r.ProdCode = true := by
    intro r hr
    rcases (hcov r hr).1 with h' | h' | h'
    · exact Or.inl h'
    · refine Or.inr ?_
      have hmem : r.ProdCode ∈ variantCodesOf s := by simpa using h'
      have hmem2 : r.ProdCode ∈ variantCodesOf s₁ := by
        rw [variantCodesOf, hvari, List.map_append]
        exact List.mem_append_left _ hmem
      simpa using hmem2
    · refine Or.inr ?_
      rw [← st5Of_eq] at h'
      have hmem : r.ProdCode ∈ (st5Of s rows).variants.map
          (fun v => v.product_code) := by
        rw [← hpar.1]
        exact h'
      have hmem2 : r.ProdCode ∈ variantCodesOf s₁ := by
        rw [variantCodesOf, hvari, List.map_append]
        exact List.mem_append_right _ hmem
      simpa using hmem2
  have hSV : ∀ r ∈ rows, (svNumbersOf s₁).contains r.SvNumber = true := by
    intro r hr
    rcases (hcov r hr).2 with h' | h'
    · have hmem : r.SvNumber ∈ svNumbersOf s := by simpa using h'
      have hmem2 : r.SvNumber ∈ svNumbersOf s₁ := by
        rw [svNumbersOf, hconn, List.map_append]
        exact List.mem_append_left _ hmem
      simpa using hmem2
    · rw [← st5Of_eq] at h'
      have hmem : r.SvNumber ∈ (st5Of s rows).connections.map
          (fun c => c.sv_number) := by
        rw [← hpar.2]
        exact h'
      have hpt : patched.map (fun c => c.sv_number)
          = (st5Of s rows).connections.map (fun c => c.sv_number) :=
        mapE_patch_sv _ rows _ _ hp
      have hmem2 : r.SvNumber ∈ svNumbersOf s₁ := by
        rw [svNumbersOf, hconn, List.map_append, hpt]
        exact List.mem_append_right _ hmem
      simpa using hmem2
  have hB : st5With s₁ s₁ rows = ⟨[], [], [], [], [], [], []⟩ := by
    rw [st5With, hA]
    simp only [List.map_nil]
    apply step5Loop_noop
    · rfl
    · intro r hr
      exact ⟨hVC r hr, hSV r hr⟩
  exact ⟨hA, hB, runImportInner_noop s₁ rows hA hB⟩

/-- Witness for C5: after the concrete successful import of `[rowF]` into
`s5w`, a second run over the same file stages and commits nothing. -/
theorem populate_consumers_idempotent_witness :
    candsOf s5wRes [rowF] = []
    ∧ st5With s5wRes s5wRes [rowF] = ⟨[], [], [], [], [], [], []⟩
    ∧ runImportInner s5wRes [rowF] = Except.ok s5wRes :=
  populate_consumers_idempotent s5w s5wRes [rowF] (by rfl)

/-- Unicode numeric-character classes for Python's `str` methods,
complete on the Latin-1 range (U+0000–U+00FF, the model's character
domain): `'¹'`, `'²'`, `'³'` are the only Latin-1 characters with
Numeric_Type=Digit that are not decimal digits — accepted by
`str.isdigit()` but rejected by `int()` and `float()`. -/
def pyDigitOnlyChar (c : Char) : Bool :=
  c = '¹' || c = '²' || c = '³'

/-- A character accepted by Python `str.isdigit()`: a decimal digit or a
Numeric_Type=Digit character. -/
def pyIsDigitChar (c : Char) : Bool :=
  c.isDigit || pyDigitOnlyChar c

/-- Python `str.isdigit()` with the full (Latin-1-complete) character
classes: non-empty and every character Digit or Decimal. -/
def pyIsDigitU (s : String) : Bool :=
  !s.toList.isEmpty && s.toList.all pyIsDigitChar

/-- Python `int(s)` on an `isdigit()` string: the decimal value when
every character is a decimal digit, `ValueError` otherwise (e.g.
`int("²")` raises even though `"²".isdigit()` is `True`). -/
def pyIntOfDigits (s : String) : Except String Nat :=
  if s.toList.all Char.isDigit then Except.ok (natOfDigits s.toList)
  else Except.error "ValueError: invalid literal for int"

/-- Round half to even of `p / q` (for `q > 0`): the IEEE-754 default
rounding, by exact integer arithmetic. -/
def rhe (p q : Nat) : Nat :=
  if 2 * (p % q) < q then p / q
  else if q < 2 * (p % q) then p / q + 1
  else if p / q % 2 = 0 then p / q else p / q + 1

/-- Binary logarithm by halving, with explicit fuel (1100 iterations
suffice for every value below the binary64 overflow bound). -/
def log2F : Nat → Nat → Nat
  | 0, _ => 0
  | fuel + 1, n => if 2 ≤ n then log2F fuel (n / 2) + 1 else 0

/-- `int(float(·))` of the non-negative decimal `n / 10^k`, by exact
integer arithmetic over IEEE-754 binary64: values at least
`2^1024 - 2^970` round to infinity (`int` then raises `OverflowError`);
values below 1 truncate to 0 or — when rounding reaches 1.0 — to 1;
otherwise the value is rounded half-to-even at the ulp `2^(e-52)` of its
binade `[2^e, 2^(e+1))` and truncated.  Checked below against CPython:
`int(float("12345678901234567")) = 12345678901234568`,
`int(float("9.9999999999999999")) = 10`. -/
def intOfFloatDigits (n k : Nat) : Except String Nat :=
  let q := 10 ^ k
  if n < q then Except.ok (rhe (n * 2 ^ 53) q / 2 ^ 53)
  else if (2 ^ 1024 - 2 ^ 970) * q ≤ n then
    Except.error "OverflowError: cannot convert float infinity to integer"
  else
    let e := log2F 1100 (n / q)
    if e ≤ 52 then Except.ok (rhe (n * 2 ^ (52 - e)) q / 2 ^ (52 - e))
    else Except.ok (rhe n (q * 2 ^ (e - 52)) * 2 ^ (e - 52))

/-- The number of digits after the first dot (the decimal exponent of the
numeral with its dot removed). -/
def fracLen (cs : List Char) : Nat :=
  match cs.dropWhile (fun c => c ≠ '.') with
  | [] => 0
  | _ :: t => t.length

/-- Line 58's guard with the full character classes: non-empty, and
deleting the first dot leaves a non-empty `isdigit()` string. -/
def lpgGuardU (s : String) : Bool :=
  !s.toList.isEmpty && (!(removeFirstDot s.toList).isEmpty
    && (removeFirstDot s.toList).all pyIsDigitChar)

/-- Line 59, exact semantics:
`int(row['BlueBookNumber']) if row.get('BlueBookNumber') and
row.get('BlueBookNumber').isdigit() else None` — absent when the guard
fails, the integer value on decimal digits, and `ValueError` when the
`isdigit()` guard passed through a Digit-only character. -/
def blueBookCoerce (s : String) : Except String (Option Nat) :=
  if s ≠ "" && pyIsDigitU s then
    match pyIntOfDigits s with
    | Except.error e => Except.error e
    | Except.ok n => Except.ok (some n)
  else Except.ok none

/-- Line 58, exact semantics:
`int(float(row['LPGId'])) if row.get('LPGId') and
row.get('LPGId').replace('.','',1).isdigit() else None` — absent when the
guard fails; on decimal digits (with at most one dot) the binary64 value
truncated, or `OverflowError` beyond the binary64 range; `ValueError`
when the guard passed through a Digit-only character (`float("²")`
raises). -/
def lpgCoerce (s : String) : Except String (Option Nat) :=
  if lpgGuardU s then
    if (removeFirstDot s.toList).all Char.isDigit then
      match intOfFloatDigits (natOfDigits (removeFirstDot s.toList))
          (fracLen s.toList) with
      | Except.error e => Except.error e
      | Except.ok m => Except.ok (some m)
    else Except.error "ValueError: could not convert string to float"
  else Except.ok none

/-- A Digit-only character is not a decimal digit. -/
theorem pyDigitOnlyChar_not_isDigit (c : Char)
    (h : pyDigitOnlyChar c = true) : Char.isDigit c = false := by
  simp only [pyDigitOnlyChar, Bool.or_eq_true, decide_eq_true_eq] at h
  rcases h with (h | h) | h <;> subst h <;> decide

/-- On Digit-only-free text, `isdigit()` is the ASCII test. -/
theorem all_pyIsDigitChar_eq (l : List Char)
    (h : ∀ c ∈ l, pyDigitOnlyChar c = false) :
    l.all pyIsDigitChar = l.all Char.isDigit := by
  induction l with
  | nil => rfl
  | cons c cs ih =>
    simp only [List.all_cons]
    rw [ih (fun c' hc' => h c' (List.mem_cons_of_mem _ hc'))]
    have hc := h c (List.mem_cons_self _ _)
    rw [pyIsDigitChar, hc, Bool.or_false]

/-- ASCII digits are `isdigit()` digits. -/
theorem all_isDigit_pyIsDigitChar (l : List Char)
    (h : l.all Char.isDigit = true) : l.all pyIsDigitChar = true := by
  rw [List.all_eq_true] at h ⊢
  intro c hc
  rw [pyIsDigitChar, h c hc, Bool.true_or]

theorem string_ne_empty_of_toList (s : String) (h : s.toList ≠ []) :
    s ≠ "" := by
  intro he
  subst he
  exact h rfl

/-- C7 counterexample: `BlueBookNumber = "²"` passes the code's own digit
test — Python `str.isdigit()` accepts Numeric_Type=Digit characters — yet
`int("²")` raises `ValueError`: the staging raises rather than storing
the integer value or absent, refuting "a malformed value becomes absent
without raising". -/
theorem populate_consumers_numeric_coercions_counterexample :
    pyIsDigitU "²" = true
    ∧ blueBookCoerce "²"
      = Except.error "ValueError: invalid literal for int" := by
  constructor
  · decide
  · rfl

set_option maxRecDepth 8000

/-- C7 amended: the line-58/59 coercions with exact semantics (Latin-1
character classes, integer-arithmetic IEEE-754 binary64).  `blue_book` is
the integer value on a non-empty ASCII-digit string and absent — without
raising — whenever the `isdigit()` guard fails (so `"12.5"` becomes
absent); but a string passing `str.isdigit()` through a Digit-only
character raises `ValueError` instead; on Digit-only-free text the exact
coercion agrees with the field staged by `mkConsumer`.  `lpg_id` is
absent whenever the float-like guard fails, and otherwise is the binary64
value of the string truncated to an integer (CPython checks: `"12.5"` ↦
12, `"9.9999999999999999"` ↦ 10, `"12345678901234567"` ↦
12345678901234568 — not the exact decimal truncation — and
`"0.99999999999999999"` ↦ 1), raising `ValueError` on a Digit-only
character and `OverflowError` beyond the binary64 range. -/
theorem populate_consumers_numeric_coercions_amended :
    (∀ s : String, s.toList ≠ [] → s.toList.all Char.isDigit = true →
      blueBookCoerce s = Except.ok (some (natOfDigits s.toList)))
    ∧ (∀ s : String, pyIsDigitU s = false →
        blueBookCoerce s = Except.ok none)
    ∧ (∀ s : String, pyIsDigitU s = true →
        (∃ c ∈ s.toList, pyDigitOnlyChar c = true) →
        blueBookCoerce s = Except.error "ValueError: invalid literal for int")
    ∧ (∀ s : String, lpgGuardU s = false → lpgCoerce s = Except.ok none)
    ∧ (∀ s : String, lpgGuardU s = true →
        (removeFirstDot s.toList).all Char.isDigit = true →
        lpgCoerce s = (match intOfFloatDigits
            (natOfDigits (removeFirstDot s.toList)) (fracLen s.toList) with
          | Except.error e => Except.error e
          | Except.ok m => Except.ok (some m)))
    ∧ (∀ s : String, lpgGuardU s = true →
        (∃ c ∈ removeFirstDot s.toList, pyDigitOnlyChar c = true) →
        lpgCoerce s
          = Except.error "ValueError: could not convert string to float")
    ∧ (∀ (cats cts : List String) (r : Row),
        (∀ c ∈ r.BlueBookNumber.toList, pyDigitOnlyChar c = false) →
        blueBookCoerce r.BlueBookNumber
          = Except.ok ((mkConsumer cats cts r).blue_book))
    ∧ lpgCoerce "12.5" = Except.ok (some 12)
    ∧ lpgCoerce "9.9999999999999999" = Except.ok (some 10)
    ∧ lpgCoerce "12345678901234567" = Except.ok (some 12345678901234568)
    ∧ lpgCoerce "0.99999999999999999" = Except.ok (some 1)
    ∧ lpgCoerce ⟨'1' :: List.replicate 309 '0'⟩
      = Except.error "OverflowError: cannot convert float infinity to integer"
    ∧ blueBookCoerce "12.5" = Except.ok none := by
  refine ⟨?_, ?_, ?_, ?_, ?_, ?_, ?_, ?_, ?_, ?_, ?_, ?_, ?_⟩
  · intro s h1 h2
    have hne : s ≠ "" := string_ne_empty_of_toList s h1
    have h1' : ¬s.data = [] := h1
    have hall' : ∀ x ∈ s.data, pyIsDigitChar x = true :=
      List.all_eq_true.mp (all_isDigit_pyIsDigitChar _ h2)
    have h2' : ∀ x ∈ s.data, Char.isDigit x = true :=
      List.all_eq_true.mp h2
    simp [blueBookCoerce, pyIsDigitU, pyIntOfDigits, hne, h1', hall', h2']
    rw [if_pos hall', if_pos h2']
  · intro s hU
    simp [blueBookCoerce, hU]
  · intro s hU hex
    rcases hex with ⟨c, hc, hdo⟩
    have hcomp := hU
    rw [pyIsDigitU, Bool.and_eq_true] at hcomp
    rcases hcomp with ⟨h1, _⟩
    have hne : s ≠ "" := by
      apply string_ne_empty_of_toList
      simpa [List.isEmpty_iff] using h1
    have hnotall : s.toList.all Char.isDigit = false := by
      rw [List.all_eq_false]
      exact ⟨c, hc, by simp [pyDigitOnlyChar_not_isDigit c hdo]⟩
    rw [blueBookCoerce, if_pos (by simp [hne, hU]), pyIntOfDigits,
      if_neg (by intro hcon; rw [hcon] at hnotall; exact Bool.noConfusion hnotall)]
  · intro s h1
    simp [lpgCoerce, h1]
  · intro s h1 h2
    rw [lpgCoerce, if_pos h1, if_pos h2]
  · intro s h1 hex
    rcases hex with ⟨c, hc, hdo⟩
    have hnotall : (removeFirstDot s.toList).all Char.isDigit = false := by
      rw [List.all_eq_false]
      exact ⟨c, hc, by simp [pyDigitOnlyChar_not_isDigit c hdo]⟩
    rw [lpgCoerce, if_pos h1,
      if_neg (by intro hcon; rw [hcon] at hnotall; exact Bool.noConfusion hnotall)]
  · intro cats cts r h
    have hUeq : pyIsDigitU r.BlueBookNumber = pyIsDigit r.BlueBookNumber := by
      rw [pyIsDigitU, pyIsDigit, all_pyIsDigitChar_eq _ h]
    cases hg : (r.BlueBookNumber ≠ "" && pyIsDigit r.BlueBookNumber) with
    | true =>
      have h12 : (decide (r.BlueBookNumber ≠ "") = true)
          ∧ pyIsDigit r.BlueBookNumber = true := by simpa using hg
      have hneP : r.BlueBookNumber ≠ "" := by simpa using h12.1
      have hallB : r.BlueBookNumber.toList.all Char.isDigit = true := by
        have hpd := h12.2
        rw [pyIsDigit, Bool.and_eq_true] at hpd
        exact hpd.2
      have hallP : ∀ x ∈ r.BlueBookNumber.data, Char.isDigit x = true :=
        List.all_eq_true.mp hallB
      simp [blueBookCoerce, mkConsumer, pyIntOfDigits, hUeq, hneP,
        h12.2, hallP, hallB]
      rw [if_pos hallP]
    | false =>
      by_cases he : r.BlueBookNumber = ""
      · simp [blueBookCoerce, mkConsumer, hUeq, he]
      · cases hpd : pyIsDigit r.BlueBookNumber with
        | true =>
          rw [hpd] at hg
          simp [he] at hg
        | false =>
          simp [blueBookCoerce, mkConsumer, hUeq, he, hpd]
  · rfl
  · rfl
  · rfl
  · rfl
  · rfl
  · rfl

/-- Witness for the amended C7 theorem: its seven conditional conjuncts
instantiated at concrete inputs — an ASCII-digit blue-book string, a
guard-failing one, a `ValueError`-raising one with a Digit-only character,
and the analogous LPG-ID cases, plus the bridge to `mkConsumer` on a
concrete row. -/
theorem populate_consumers_numeric_coercions_amended_witness :
    blueBookCoerce "317" = Except.ok (some (natOfDigits "317".toList))
    ∧ blueBookCoerce "12x" = Except.ok none
    ∧ blueBookCoerce "3²" = Except.error "ValueError: invalid literal for int"
    ∧ lpgCoerce "x" = Except.ok none
    ∧ lpgCoerce "42.9"
      = (match intOfFloatDigits (natOfDigits (removeFirstDot "42.9".toList))
            (fracLen "42.9".toList) with
        | Except.error e => Except.error e
        | Except.ok m => Except.ok (some m))
    ∧ lpgCoerce "4².5"
      = Except.error "ValueError: could not convert string to float"
    ∧ blueBookCoerce (Row.BlueBookNumber { blankRow with BlueBookNumber := "88" })
      = Except.ok ((mkConsumer [] [] { blankRow with BlueBookNumber := "88" }).blue_book) := by
  obtain ⟨p1, p2, p3, p4, p5, p6, p7, _⟩ :=
    populate_consumers_numeric_coercions_amended
  exact ⟨p1 "317" (by decide) (by decide),
    p2 "12x" (by decide),
    p3 "3²" (by decide) ⟨'²', by decide, by decide⟩,
    p4 "x" (by decide),
    p5 "42.9" (by decide) (by decide),
    p6 "4².5" (by decide) ⟨'²', by decide, by decide⟩,
    p7 [] [] _ (by decide)⟩
